import Mathlib

/-
Verification development for the qtproperties repository.

Shallow embedding of:
  src/qtproperties/data.py      (Int2, Float2 vector value types)
  src/qtproperties/widgets.py   (PropertyWidget, IntProperty, Int2Property,
                                 IntLineEdit, FloatLineEdit, validators)
  src/qtproperties/editor.py    (PropertyEditor, PropertyGroup, linking)

Modeling conventions:
  - Python int is modeled as Lean Int, Python float as an exact rational.
  - Python strings are modeled as List Char (ASCII subset used by the code).
  - Exceptions are modeled with Except PyErr.
  - Qt signal emission is modeled by returning the list of emitted payloads;
    blockSignals is a Bool flag on the emitting object, as in Qt.
-/

/-- Python exception kinds raised by the modeled code paths. -/
inductive PyErr where
  | zeroDivisionError
  | attributeError
  | keyError
  | typeError
deriving DecidableEq, Repr

/-- A Python number: an int or a float. Source floats are modeled as exact
rationals. -/
inductive PyNum where
  | int (n : Int)
  | float (q : Rat)
deriving DecidableEq, Repr

/-- Numeric value of a Python number. -/
def PyNum.toQ : PyNum → Rat
  | .int n => n
  | .float q => q

/-- Whether a Python value is an int (isinstance(v, int)). -/
def PyNum.isInt : PyNum → Bool
  | .int _ => true
  | .float _ => false

/-- Python addition: int + int gives int, otherwise float. -/
def pyAdd : PyNum → PyNum → PyNum
  | .int a, .int b => .int (a + b)
  | a, b => .float (a.toQ + b.toQ)

/-- Python subtraction: int - int gives int, otherwise float. -/
def pySub : PyNum → PyNum → PyNum
  | .int a, .int b => .int (a - b)
  | a, b => .float (a.toQ - b.toQ)

/-- Python multiplication: int * int gives int, otherwise float. -/
def pyMul : PyNum → PyNum → PyNum
  | .int a, .int b => .int (a * b)
  | a, b => .float (a.toQ * b.toQ)

/-- Python true division: always a float; raises ZeroDivisionError on a zero
divisor. -/
def pyTrueDiv (a b : PyNum) : Except PyErr PyNum :=
  if b.toQ = 0 then .error .zeroDivisionError
  else .ok (.float (a.toQ / b.toQ))

/-- Python floor division: int // int gives int, otherwise a float; floors
toward negative infinity; raises ZeroDivisionError on a zero divisor. -/
def pyFloorDiv (a b : PyNum) : Except PyErr PyNum :=
  if b.toQ = 0 then .error .zeroDivisionError
  else
    match a, b with
    | .int m, .int n => .ok (.int (Int.fdiv m n))
    | _, _ => .ok (.float (⌊a.toQ / b.toQ⌋ : Int))

/-- The coercion of Int2.__post_init__ (data.py lines 12-17) applied to one
component: a float is floored with math.floor, then int() is applied. -/
def pyCoerceInt : PyNum → PyNum
  | .int n => .int n
  | .float q => .int ⌊q⌋

/-- The Int2 dataclass (data.py lines 7-45). Python fields are dynamically
typed: the annotations x: int, y: int are not enforced on assignment, so the
fields hold arbitrary Python numbers. -/
structure Int2 where
  x : PyNum
  y : PyNum
deriving DecidableEq, Repr

/-- Int2(x, y): dataclass construction runs __post_init__, which floors float
components and applies int() (data.py lines 12-17). -/
def Int2.init (x y : PyNum) : Int2 :=
  ⟨pyCoerceInt x, pyCoerceInt y⟩

/-- Plain attribute assignment v.x = value on an Int2: dataclasses do not
rerun __post_init__ on assignment, so the value is stored unchanged. -/
def Int2.setattr_x (a : Int2) (v : PyNum) : Int2 :=
  { a with x := v }

/-- The right-hand operand of an Int2 arithmetic operation: another Int2 or a
scalar number. -/
inductive Int2.Operand where
  | vec (v : Int2)
  | scalar (s : PyNum)
deriving DecidableEq, Repr

/-- Int2.__truediv__ (data.py lines 22-25): reads other.x and other.y, so a
scalar operand raises AttributeError; results pass through Int2.init. -/
def Int2.truediv (a : Int2) : Int2.Operand → Except PyErr Int2
  | .vec b => do
      let x ← pyTrueDiv a.x b.x
      let y ← pyTrueDiv a.y b.y
      pure (Int2.init x y)
  | .scalar _ => .error .attributeError

/-- Int2.__floordiv__ (data.py lines 27-30): reads other.x and other.y, so a
scalar operand raises AttributeError. -/
def Int2.floordiv (a : Int2) : Int2.Operand → Except PyErr Int2
  | .vec b => do
      let x ← pyFloorDiv a.x b.x
      let y ← pyFloorDiv a.y b.y
      pure (Int2.init x y)
  | .scalar _ => .error .attributeError

/-- Int2.__add__ (data.py lines 32-35): isinstance check broadcasts a scalar
operand to both components. -/
def Int2.add (a : Int2) : Int2.Operand → Int2
  | .vec b => Int2.init (pyAdd a.x b.x) (pyAdd a.y b.y)
  | .scalar s => Int2.init (pyAdd a.x s) (pyAdd a.y s)

/-- Int2.__sub__ (data.py lines 37-40). -/
def Int2.sub (a : Int2) : Int2.Operand → Int2
  | .vec b => Int2.init (pySub a.x b.x) (pySub a.y b.y)
  | .scalar s => Int2.init (pySub a.x s) (pySub a.y s)

/-- Int2.__mul__ (data.py lines 42-45). -/
def Int2.mul (a : Int2) : Int2.Operand → Int2
  | .vec b => Int2.init (pyMul a.x b.x) (pyMul a.y b.y)
  | .scalar s => Int2.init (pyMul a.x s) (pyMul a.y s)

/-- Whether both components of an Int2 are stored as Python ints. -/
def Int2.wellFormed (a : Int2) : Bool :=
  a.x.isInt && a.y.isInt

/-- The Float2 dataclass (data.py lines 48-79). No __post_init__: components
are stored unchanged. -/
structure Float2 where
  x : PyNum
  y : PyNum
deriving DecidableEq, Repr

/-- Float2(x, y): plain dataclass construction, no coercion. -/
def Float2.init (x y : PyNum) : Float2 :=
  ⟨x, y⟩

/-- The right-hand operand of a Float2 arithmetic operation. -/
inductive Float2.Operand where
  | vec (v : Float2)
  | scalar (s : PyNum)
deriving DecidableEq, Repr

/-- Float2.__truediv__ (data.py lines 56-59): reads other.x and other.y, so a
scalar operand raises AttributeError. -/
def Float2.truediv (a : Float2) : Float2.Operand → Except PyErr Float2
  | .vec b => do
      let x ← pyTrueDiv a.x b.x
      let y ← pyTrueDiv a.y b.y
      pure (Float2.init x y)
  | .scalar _ => .error .attributeError

/-- Float2.__floordiv__ (data.py lines 61-64). -/
def Float2.floordiv (a : Float2) : Float2.Operand → Except PyErr Float2
  | .vec b => do
      let x ← pyFloorDiv a.x b.x
      let y ← pyFloorDiv a.y b.y
      pure (Float2.init x y)
  | .scalar _ => .error .attributeError

/-- Float2.__add__ (data.py lines 66-69). -/
def Float2.add (a : Float2) : Float2.Operand → Float2
  | .vec b => Float2.init (pyAdd a.x b.x) (pyAdd a.y b.y)
  | .scalar s => Float2.init (pyAdd a.x s) (pyAdd a.y s)

/-- Float2.__sub__ (data.py lines 71-74). -/
def Float2.sub (a : Float2) : Float2.Operand → Float2
  | .vec b => Float2.init (pySub a.x b.x) (pySub a.y b.y)
  | .scalar s => Float2.init (pySub a.x s) (pySub a.y s)

/-- Float2.__mul__ (data.py lines 76-79). -/
def Float2.mul (a : Float2) : Float2.Operand → Float2
  | .vec b => Float2.init (pyMul a.x b.x) (pyMul a.y b.y)
  | .scalar s => Float2.init (pyMul a.x s) (pyMul a.y s)

/-- str.isdigit for the ASCII characters handled by the widgets. -/
def pyIsDigit (c : Char) : Bool :=
  decide ('0' ≤ c) && decide (c ≤ '9')

/-- The character of a single decimal digit. -/
def digitChar (d : Nat) : Char :=
  Char.ofNat (48 + d)

/-- Numeric value of a decimal digit character. -/
def charVal (c : Char) : Nat :=
  c.toNat - 48

/-- Decimal digit characters of n, least significant first, with explicit
fuel for structural recursion; empty on n = 0. -/
def natDigitsRevAux : Nat → Nat → List Char
  | 0, _ => []
  | _, 0 => []
  | fuel + 1, n + 1 => digitChar ((n + 1) % 10) :: natDigitsRevAux fuel ((n + 1) / 10)

/-- Decimal digit characters of n, most significant first, as Python str
renders a nonnegative int. -/
def natDigits (n : Nat) : List Char :=
  if n = 0 then ['0'] else (natDigitsRevAux n n).reverse

/-- Value of a big-endian list of digit characters. -/
def digitsVal (cs : List Char) : Nat :=
  cs.foldl (fun a c => 10 * a + charVal c) 0

/-- Python int(text) on an unsigned body: all digits, nonempty. -/
def pyParseIntCore (cs : List Char) : Option Int :=
  if !cs.isEmpty && cs.all pyIsDigit then some (digitsVal cs) else none

/-- Python int(text): optional sign, then digits; none when the text does
not parse (the callers catch ValueError). -/
def pyParseInt (cs : List Char) : Option Int :=
  if cs.head? = some '-' then (pyParseIntCore cs.tail).map (fun n => -n)
  else if cs.head? = some '+' then pyParseIntCore cs.tail
  else pyParseIntCore cs

/-- Python float(text) on an unsigned body in standard notation: digits, an
optional decimal point, digits; at least one digit in total. -/
def pyParseFloatCore (cs : List Char) : Option Rat :=
  let ip := cs.takeWhile pyIsDigit
  let rest := cs.dropWhile pyIsDigit
  if rest.isEmpty then
    if ip.isEmpty then none else some ((digitsVal ip : Int) : Rat)
  else if rest.head? = some '.' then
    let fp := rest.tail
    if fp.all pyIsDigit && (!ip.isEmpty || !fp.isEmpty) then
      some (((digitsVal ip : Int) : Rat) + ((digitsVal fp : Int) : Rat) / 10 ^ fp.length)
    else none
  else none

/-- Python float(text): optional sign, then an unsigned body. -/
def pyParseFloat (cs : List Char) : Option Rat :=
  if cs.head? = some '-' then (pyParseFloatCore cs.tail).map (fun q => -q)
  else if cs.head? = some '+' then pyParseFloatCore cs.tail
  else pyParseFloatCore cs

/-- k zero characters. -/
def zeros (k : Nat) : List Char :=
  List.replicate k '0'

/-- The Python format spec 0{p} applied to an int: zero padded to total
width p, the sign counted inside the width (widgets.py line 666). -/
def formatIntPadded (v : Int) (p : Nat) : List Char :=
  let ds := natDigits v.natAbs
  if v < 0 then '-' :: (zeros (p - 1 - ds.length) ++ ds)
  else zeros (p - ds.length) ++ ds

/-- Python str for an int. -/
def strInt (v : Int) : List Char :=
  formatIntPadded v 0

/-- Rounding a rational to an integer, ties to even: the rule Python round
and float formatting follow on the idealized exact values. -/
def pyRoundInt (s : Rat) : Int :=
  let fl := ⌊s⌋
  let f := s - fl
  if f < 1 / 2 then fl
  else if 1 / 2 < f then fl + 1
  else if fl % 2 = 0 then fl else fl + 1

/-- Python round(q, d) to d decimal places. -/
def pyRound (q : Rat) (d : Nat) : Rat :=
  (pyRoundInt (q * 10 ^ d) : Rat) / 10 ^ d

/-- Digit characters of m, zero filled on the left to width d. -/
def zeroFill (d m : Nat) : List Char :=
  let ds := natDigits m
  zeros (d - ds.length) ++ ds

/-- The Python format spec 0{w}.{d}f applied to a float: fixed point with
exactly d decimals (rounded ties to even), zero padded to total width w
with the sign inside the padding (widgets.py line 755). The exact
rational model has no negative zero, so a negative value that rounds to
zero prints without the minus sign here. -/
def formatFloatPadded (q : Rat) (w d : Nat) : List Char :=
  let n := pyRoundInt (q * 10 ^ d)
  let body := natDigits (n.natAbs / 10 ^ d) ++
    (if d = 0 then [] else '.' :: zeroFill d (n.natAbs % 10 ^ d))
  let sgn := if n < 0 then ['-'] else []
  sgn ++ zeros (w - (sgn.length + body.length)) ++ body

/-- The Python format spec .{d}f with no width. -/
def formatFloat (q : Rat) (d : Nat) : List Char :=
  formatFloatPadded q 0 d

/-- The least number of decimals that writes q exactly, searched up to the
denominator (enough for every dyadic rational, hence for every Python
float). -/
def ratDecimals (q : Rat) : Nat :=
  ((List.range (q.den + 1)).find? (fun k => (q * 10 ^ k).den = 1)).getD q.den

/-- Python str for a float: the shortest round-tripping decimal form, with
at least one decimal place. -/
def strFloat (q : Rat) : List Char :=
  formatFloat q (max 1 (ratDecimals q))

/-- Python int() applied to a float: truncation toward zero. -/
def pyTrunc (q : Rat) : Int :=
  if q < 0 then -⌊-q⌋ else ⌊q⌋

/-- Python str for a number. -/
def pyStr : PyNum → List Char
  | .int n => strInt n
  | .float q => strFloat q

/-- QIntValidator state == Acceptable: the text parses as an integer within
[bottom, top]. The modeled code branches only on Acceptable. -/
def intAcceptable (bottom top : Int) (cs : List Char) : Bool :=
  match pyParseInt cs with
  | some n => decide (bottom ≤ n ∧ n ≤ top)
  | none => false

/-- Python text.find applied to the decimal point: the index of the first
decimal point, if any. -/
def decIndex : List Char → Option Nat
  | [] => none
  | c :: rest => if c = '.' then some 0 else (decIndex rest).map (fun i => i + 1)

/-- Count of digit characters in a text. -/
def digitCount (cs : List Char) : Nat :=
  (cs.filter pyIsDigit).length

/-- Decimal places used by a text: the characters after the first decimal
point. -/
def decimalsUsed (cs : List Char) : Nat :=
  match decIndex cs with
  | some i => cs.length - 1 - i
  | none => 0

/-- QDoubleValidator state == Acceptable with StandardNotation: the text
parses, lies within [bottom, top], and uses at most the configured
decimals. -/
def doubleAcceptable (bottom top : Rat) (decimals : Nat) (cs : List Char) : Bool :=
  match pyParseFloat cs with
  | some q => decide (bottom ≤ q ∧ q ≤ top ∧ decimalsUsed cs ≤ decimals)
  | none => false

/-- IntValidator.fixup (widgets.py lines 770-773): the Qt5 base fixup leaves
the text unchanged and the override removes every comma. -/
def intFixup (cs : List Char) : List Char :=
  cs.filter (fun c => decide (c ≠ ','))

/-- DoubleValidator.fixup (widgets.py lines 776-790) : a parsing text is
clamped to [bottom, top], rounded to the configured decimals and rendered
with exactly that many decimals; a text that does not parse is turned
into a char list whose second float() call raises TypeError (uncaught,
since only ValueError is handled). -/
def DoubleValidator.fixup (bottom top : Rat) (decimals : Nat) (cs : List Char) :
    Except PyErr (List Char) :=
  match pyParseFloat cs with
  | some v => .ok (formatFloat (pyRound (min (max v bottom) top) decimals) decimals)
  | none => .error .typeError

/-- State of an IntLineEdit (widgets.py lines 563-691): displayed text, the
cached _value, cursor and selection (start, length), the validator bounds,
and the Qt blockSignals flag. -/
structure IntLineEdit where
  text : List Char
  storedValue : Int
  cursor : Nat
  selection : Option (Nat × Nat)
  bottom : Int
  top : Int
  blocked : Bool
deriving DecidableEq, Repr

/-- The value property getter (widgets.py lines 590-595): int(self.text()),
with a parse failure giving 0. -/
def IntLineEdit.value (s : IntLineEdit) : Int :=
  (pyParseInt s.text).getD 0

/-- The value property setter (widgets.py lines 597-602): emits valueChanged
when the new value differs from the cached one (nothing is emitted while
signals are blocked), then caches it. -/
def IntLineEdit.setValueProp (s : IntLineEdit) (v : Int) : IntLineEdit × List Int :=
  ({ s with storedValue := v },
   if v ≠ s.storedValue ∧ s.blocked = false then [v] else [])

/-- QLineEdit.setText: replaces the text, clears the selection, moves the
cursor to the end. -/
def IntLineEdit.setText (s : IntLineEdit) (t : List Char) : IntLineEdit :=
  { s with text := t, selection := none, cursor := t.length }

/-- IntLineEdit.strip_padding (widgets.py lines 686-691). For the int editor
the int(value) == value test always holds, so the value is unchanged by
it; the text is rewritten as str(value). -/
def IntLineEdit.strip_padding (s : IntLineEdit) : IntLineEdit × List Int :=
  let value := s.value
  let (s1, evs) := s.setValueProp value
  (s1.setText (strInt value), evs)

/-- IntLineEdit.setValue (widgets.py lines 604-610): runs the validator
fixup over str(value), commits only when the result validates. -/
def IntLineEdit.setValue (s : IntLineEdit) (v : PyNum) : IntLineEdit × List Int :=
  let t := intFixup (pyStr v)
  if intAcceptable s.bottom s.top t then
    (s.setText t).strip_padding
  else (s, [])

/-- IntLineEdit.step_index (widgets.py lines 669-675): distance from the
caret to the end of the text, floored at 1. -/
def IntLineEdit.step_index (text : List Char) (position : Nat) : Nat :=
  max 1 (text.length - position)

/-- IntLineEdit.step_exponent (widgets.py lines 677-680). -/
def IntLineEdit.step_exponent (stepIndex : Nat) : Nat :=
  stepIndex - 1

/-- IntLineEdit.step_index_to_position (widgets.py lines 682-684). The
Python value can be negative only for texts whose digit count shrinks
below the step index, which no reachable step produces; Nat subtraction
truncates there. -/
def IntLineEdit.step_index_to_position (stepIndex : Nat) (text : List Char) : Nat :=
  text.length - stepIndex

/-- IntLineEdit.match_value_to_text (widgets.py lines 661-667): formats the
value zero padded to the digit width of the old text, one wider when the
new value is negative. The exponent argument is unused here, as in the
source. -/
def IntLineEdit.match_value_to_text (value : Int) (text : List Char) (_exponent : Nat) :
    List Char :=
  let padding := digitCount text + (if value < 0 then 1 else 0)
  formatIntPadded value padding

/-- IntLineEdit.step (widgets.py lines 628-659): caret relative increment.
Returns the new state and the reported success. The valueChanged
emissions of the committing assignment are not observed by any claim
about step and are dropped here. -/
def IntLineEdit.step (s : IntLineEdit) (add : Bool) : IntLineEdit × Bool :=
  let text := if s.text.isEmpty then ['0'] else s.text
  let position := match s.selection with
    | some sel => sel.1
    | none => s.cursor
  if position < text.length ∧ pyIsDigit (text.getD position ' ') = false then
    (s, false)
  else
    let stepIndex := IntLineEdit.step_index text position
    let exponent := IntLineEdit.step_exponent stepIndex
    let amount : Int := if add then 1 else -1
    let value := s.value + amount * 10 ^ exponent
    let text1 := IntLineEdit.match_value_to_text value text exponent
    if intAcceptable s.bottom s.top text1 then
      let s1 := s.setText text1
      let s2 := (s1.setValueProp value).1
      let pos1 := IntLineEdit.step_index_to_position stepIndex text1
      ({ s2 with selection := some (pos1, 1), cursor := pos1 + 1 }, true)
    else (s, false)

/-- State of a FloatLineEdit (widgets.py lines 694-767): as IntLineEdit plus
the configured decimals of its DoubleValidator. -/
structure FloatLineEdit where
  text : List Char
  storedValue : Rat
  cursor : Nat
  selection : Option (Nat × Nat)
  bottom : Rat
  top : Rat
  decimals : Nat
  blocked : Bool
deriving DecidableEq, Repr

/-- The overridden value getter (widgets.py lines 707-712): float(text),
with a parse failure giving 0. -/
def FloatLineEdit.value (s : FloatLineEdit) : Rat :=
  (pyParseFloat s.text).getD 0

/-- The inherited value setter (widgets.py lines 597-602) at float type. -/
def FloatLineEdit.setValueProp (s : FloatLineEdit) (v : Rat) : FloatLineEdit × List Rat :=
  ({ s with storedValue := v },
   if v ≠ s.storedValue ∧ s.blocked = false then [v] else [])

/-- QLineEdit.setText for the float editor. -/
def FloatLineEdit.setText (s : FloatLineEdit) (t : List Char) : FloatLineEdit :=
  { s with text := t, selection := none, cursor := t.length }

/-- The inherited strip_padding (widgets.py lines 686-691) with the float
value getter: an integer valued float collapses to its int text form,
otherwise str of the float is shown. -/
def FloatLineEdit.strip_padding (s : FloatLineEdit) : FloatLineEdit × List Rat :=
  let value := s.value
  let (s1, evs) := s.setValueProp value
  if (pyTrunc value : Rat) = value then (s1.setText (strInt (pyTrunc value)), evs)
  else (s1.setText (strFloat value), evs)

/-- The inherited setValue (widgets.py lines 604-610) with DoubleValidator:
fixup formats str(value) (possibly raising TypeError on garbage), and the
result commits only when it validates. -/
def FloatLineEdit.setValue (s : FloatLineEdit) (v : Rat) :
    Except PyErr (FloatLineEdit × List Rat) :=
  match DoubleValidator.fixup s.bottom s.top s.decimals (pyStr (.float v)) with
  | .error e => .error e
  | .ok t =>
      if doubleAcceptable s.bottom s.top s.decimals t then
        .ok ((s.setText t).strip_padding)
      else .ok (s, [])

/-- FloatLineEdit.step_index (widgets.py lines 714-722): signed distance
from the caret to the decimal point, or to the end when there is none. -/
def FloatLineEdit.step_index (text : List Char) (position : Nat) : Int :=
  match decIndex text with
  | none => (text.length : Int) - position
  | some di => (di : Int) - position

/-- FloatLineEdit.step_exponent (widgets.py lines 724-731): a nonnegative
step index is shifted down by one. -/
def FloatLineEdit.step_exponent (stepIndex : Int) : Int :=
  if 0 ≤ stepIndex then stepIndex - 1 else stepIndex

/-- FloatLineEdit.match_value_to_text (widgets.py lines 733-757): preserves
the decimal place count (extended when the step needs finer places) and
the integer digit width, rounds, and formats zero padded. -/
def FloatLineEdit.match_value_to_text (value : Rat) (text : List Char) (exponent : Int) :
    List Char :=
  let di := decIndex text
  let paddingDecimal0 : Int := match di with
    | none => 0
    | some i => (text.length : Int) - 1 - i
  let text1 := match di with
    | none => text
    | some i => text.take i
  let paddingDecimal := (max paddingDecimal0 (-exponent)).toNat
  let paddingInt0 := digitCount text1 + (if value < 0 then 1 else 0)
  let paddingInt := paddingInt0 + paddingDecimal + (if paddingDecimal ≠ 0 then 1 else 0)
  formatFloatPadded (pyRound value paddingDecimal) paddingInt paddingDecimal

/-- FloatLineEdit.step_index_to_position (widgets.py lines 759-767). -/
def FloatLineEdit.step_index_to_position (stepIndex : Int) (text : List Char) : Int :=
  match decIndex text with
  | none => (text.length : Int) - stepIndex
  | some di =>
      let si := if stepIndex = 0 then -1 else stepIndex
      (di : Int) - si

/-- The decimal padding computed inside FloatLineEdit.match_value_to_text
(widgets.py lines 737-745), named for analysis. -/
def stepPadDecimal (text : List Char) (exponent : Int) : Nat :=
  (max (match decIndex text with
    | none => (0 : Int)
    | some i => (text.length : Int) - 1 - i) (-exponent)).toNat

/-- The total width computed inside FloatLineEdit.match_value_to_text
(widgets.py lines 746-752), named for analysis. -/
def stepPadTotal (value : Rat) (text : List Char) (exponent : Int) : Nat :=
  digitCount (match decIndex text with
    | none => text
    | some i => text.take i) + (if value < 0 then 1 else 0) +
    stepPadDecimal text exponent + (if stepPadDecimal text exponent ≠ 0 then 1 else 0)

/-- The inherited step (widgets.py lines 628-659) with the float helpers.
The selection start is clamped at zero as Qt does for negative
positions. -/
def FloatLineEdit.step (s : FloatLineEdit) (add : Bool) : FloatLineEdit × Bool :=
  let text := if s.text.isEmpty then ['0'] else s.text
  let position := match s.selection with
    | some sel => sel.1
    | none => s.cursor
  if position < text.length ∧ pyIsDigit (text.getD position ' ') = false then
    (s, false)
  else
    let stepIndex := FloatLineEdit.step_index text position
    let exponent := FloatLineEdit.step_exponent stepIndex
    let amount : Rat := if add then 1 else -1
    let value := s.value + amount * (10 : Rat) ^ exponent
    let text1 := FloatLineEdit.match_value_to_text value text exponent
    if doubleAcceptable s.bottom s.top s.decimals text1 then
      let s1 := s.setText text1
      let s2 := (s1.setValueProp value).1
      let pos1 := (FloatLineEdit.step_index_to_position stepIndex text1).toNat
      ({ s2 with selection := some (pos1, 1), cursor := pos1 + 1 }, true)
    else (s, false)

/-- Qt slider state owned by an IntProperty. -/
structure Slider where
  pos : Int
  smin : Int
  smax : Int
  blocked : Bool
deriving DecidableEq, Repr

/-- QSlider.setSliderPosition clamps to the slider range. The modeled call
site blocks signals around the call, so no emission is produced. -/
def Slider.setSliderPosition (sl : Slider) (v : Int) : Slider :=
  { sl with pos := max sl.smin (min sl.smax v) }

/-- State of an IntProperty (widgets.py lines 82-183): the cached _value and
the owned IntLineEdit and slider. connect_ui (lines 141-143) wires
slider.valueChanged and line.valueChanged to the handlers. -/
structure IntProperty where
  pvalue : Int
  line : IntLineEdit
  slider : Slider
deriving DecidableEq, Repr

/-- IntProperty.set_slider_value (widgets.py lines 172-175): blocks the
slider signals, sets the position, unblocks. -/
def IntProperty.set_slider_value (w : IntProperty) (v : Int) : IntProperty :=
  let sl1 := { w.slider with blocked := true }
  let sl2 := sl1.setSliderPosition v
  { w with slider := { sl2 with blocked := false } }

/-- IntProperty.set_line_value (widgets.py lines 167-170): blocks the line
signals, pushes the value with setValue, unblocks. Returns the line
valueChanged payloads that escaped (none can, since signals are
blocked). -/
def IntProperty.set_line_value (w : IntProperty) (v : Int) : IntProperty × List Int :=
  let line1 := { w.line with blocked := true }
  let (line2, evs) := line1.setValue (.int v)
  ({ w with line := { line2 with blocked := false } }, evs)

/-- IntProperty.line_value_changed (widgets.py lines 162-165): caches the
value, mirrors it into the slider, emits the widget valueChanged. -/
def IntProperty.line_value_changed (w : IntProperty) (v : Int) : IntProperty × List Int :=
  let w1 := { w with pvalue := v }
  let w2 := w1.set_slider_value v
  (w2, [v])

/-- The IntProperty value setter (widgets.py lines 177-183): validates the
type, caches, pushes into the slider and the line with signals blocked,
then emits valueChanged once. Every line emission that escaped the push
would additionally run line_value_changed through the connection of line
143; the returned list collects all widget level valueChanged payloads
in order. -/
def IntProperty.setValue (w : IntProperty) (v : Int) : IntProperty × List Int :=
  let w1 := { w with pvalue := v }
  let w2 := w1.set_slider_value v
  let (w3, lineEvs) := w2.set_line_value v
  let handled := lineEvs.foldl
    (fun acc ev =>
      let r := IntProperty.line_value_changed acc.1 ev
      (r.1, acc.2 ++ r.2))
    (w3, ([] : List Int))
  (handled.1, handled.2 ++ [v])

/-- State of an Int2Property (widgets.py lines 233-274): the cached _value
and two IntLineEdits. connect_ui (lines 259-261) wires both lines
valueChanged to line_value_changed; no signal blocking is used
anywhere in this class. -/
structure Int2Property where
  pvalue : Int2
  line1 : IntLineEdit
  line2 : IntLineEdit
deriving DecidableEq, Repr

/-- Int2Property.line_value_changed (widgets.py lines 263-266): rebuilds the
composite value from both lines, caches it, emits the widget
valueChanged. -/
def Int2Property.line_value_changed (w : Int2Property) : Int2Property × List Int2 :=
  let value := Int2.init (.int w.line1.value) (.int w.line2.value)
  ({ w with pvalue := value }, [value])

/-- The Int2Property value setter (widgets.py lines 268-274): validates the
type, caches, pushes into both lines with plain setValue calls (signals
not blocked), then emits valueChanged. Each line emission triggers
line_value_changed and hence an extra widget emission. The returned list
collects all widget level valueChanged payloads in order. -/
def Int2Property.setValue (w : Int2Property) (v : Int2) : Int2Property × List Int2 :=
  let w1 := { w with pvalue := v }
  let (l1, evs1) := w1.line1.setValue v.x
  let w2 := { w1 with line1 := l1 }
  let h1 := evs1.foldl
    (fun acc _ =>
      let r := Int2Property.line_value_changed acc.1
      (r.1, acc.2 ++ r.2))
    (w2, ([] : List Int2))
  let (l2, evs2) := h1.1.line2.setValue v.y
  let w3 := { h1.1 with line2 := l2 }
  let h2 := evs2.foldl
    (fun acc _ =>
      let r := Int2Property.line_value_changed acc.1
      (r.1, acc.2 ++ r.2))
    (w3, h1.2)
  (h2.1, h2.2 ++ [v])

/-- The override and subscription state of one linked row of a
PropertyGroup built with a link (editor.py lines 130-142 and 172-219):
the source widget value, the mirrored widget value, the number of live
connections from the source valueChanged signal to the mirrored
set_value slot, the checkbox state, and whether the row is enabled. -/
structure LinkedRow where
  a : Int
  b : Int
  subs : Nat
  overridden : Bool
  rowEnabled : Bool
deriving DecidableEq, Repr

/-- PropertyGroup.set_widget_row_enabled (editor.py lines 186-219) on a
linked row: enabling disconnects the subscription (Qt disconnect removes
every connection of the given signal slot pair); disabling assigns the
current source value to the mirrored widget and connects. -/
def LinkedRow.set_widget_row_enabled (s : LinkedRow) (enabled : Bool) : LinkedRow :=
  if enabled then { s with rowEnabled := true, subs := 0 }
  else { s with rowEnabled := false, b := s.a, subs := s.subs + 1 }

/-- Construction of a linked row (editor.py lines 138-142 and 172-177): the
mirrored widget is cloned from the source (starting at the shared
default d), registered with link set, and immediately disabled, which
pulls the current source value a0 and subscribes once. -/
def LinkedRow.init (a0 d : Int) : LinkedRow :=
  LinkedRow.set_widget_row_enabled
    { a := a0, b := d, subs := 0, overridden := false, rowEnabled := true } false

/-- External events on a linked pair: the source widget value changes, or
the override checkbox of the mirrored row is toggled. -/
inductive LinkEvent where
  | setA (v : Int)
  | toggle
deriving DecidableEq, Repr

/-- One event step. A source change first updates the source widget, and
its valueChanged emission runs every subscribed set_value slot, which is
partial(setattr, widget, value) (editor.py line 213), so the mirrored
value tracks the source while subscribed. A checkbox toggle flips the
checked state; stateChanged runs override_changed (editor.py lines
183-184), which applies set_widget_row_enabled with the new checked
state. -/
def LinkedRow.stepEvent (s : LinkedRow) : LinkEvent → LinkedRow
  | .setA v =>
      let s1 := { s with a := v }
      if s.subs ≠ 0 then { s1 with b := v } else s1
  | .toggle =>
      let s1 := { s with overridden := !s.overridden }
      s1.set_widget_row_enabled s1.overridden

/-- Run a list of events from a state. -/
def LinkedRow.run (s : LinkedRow) (evs : List LinkEvent) : LinkedRow :=
  evs.foldl LinkedRow.stepEvent s

/-- First-match association lookup, the model of Python dict indexing for
the value mappings (`name in values` and `values[name]`). -/
def alookup {κ α : Type} [DecidableEq κ] (k : κ) : List (κ × α) → Option α
  | [] => none
  | p :: rest => if p.1 = k then some p.2 else alookup k rest

/-- A concrete widget as a value store: for the property variants the value
setter stores and the getter returns the stored value. -/
structure StoreWidget (α : Type) where
  value : α
deriving DecidableEq, Repr

/-- A property group as its ordered mapping from property name to widget
(editor.py line 132). -/
structure PropertyGroup (α : Type) where
  widgets : List (String × StoreWidget α)
deriving DecidableEq, Repr

/-- PropertyGroup.values getter (editor.py lines 224-227). -/
def PropertyGroup.values {α : Type} (g : PropertyGroup α) : List (String × α) :=
  g.widgets.map (fun p => (p.1, p.2.value))

/-- PropertyGroup.values setter (editor.py lines 229-233): assigns each
widget whose name is present in the incoming mapping; other widgets are
left untouched. -/
def PropertyGroup.setValues {α : Type} (g : PropertyGroup α) (vs : List (String × α)) :
    PropertyGroup α :=
  ⟨g.widgets.map (fun p =>
    match alookup p.1 vs with
    | some x => (p.1, { p.2 with value := x })
    | none => p)⟩

/-- The PropertyEditor groups mapping: tab name (none for the unqualified
scope) to group name to group (editor.py line 21). -/
structure PropertyEditor (α : Type) where
  groups : List (Option String × List (Option String × PropertyGroup α))
deriving DecidableEq, Repr

/-- The nested value tree exchanged through PropertyEditor.values. -/
abbrev ValueTree (α : Type) :=
  List (Option String × List (Option String × List (String × α)))

/-- PropertyEditor.values getter (editor.py lines 107-115). -/
def PropertyEditor.values {α : Type} (e : PropertyEditor α) : ValueTree α :=
  e.groups.map (fun t => (t.1, t.2.map (fun g => (g.1, g.2.values))))

/-- PropertyEditor.values setter (editor.py lines 117-124): tabs absent from
the incoming mapping are skipped, groups absent are skipped, and each
found group merges with PropertyGroup.values. -/
def PropertyEditor.setValues {α : Type} (e : PropertyEditor α) (vs : ValueTree α) :
    PropertyEditor α :=
  ⟨e.groups.map (fun t =>
    match alookup t.1 vs with
    | none => t
    | some tvs =>
        (t.1, t.2.map (fun g =>
          match alookup g.1 tvs with
          | none => g
          | some gvs => (g.1, g.2.setValues gvs))))⟩

/-- Lookup of one widget value inside an editor state. -/
def PropertyEditor.lookupValue {α : Type} (e : PropertyEditor α)
    (t g : Option String) (n : String) : Option α :=
  match alookup t e.groups with
  | none => none
  | some gs =>
      match alookup g gs with
      | none => none
      | some grp => (alookup n grp.widgets).map (fun w => w.value)

/-- Lookup of one entry inside a nested value tree. -/
def treeLookup {α : Type} (vs : ValueTree α) (t g : Option String) (n : String) :
    Option α :=
  match alookup t vs with
  | none => none
  | some tvs =>
      match alookup g tvs with
      | none => none
      | some gvs => alookup n gvs

/-- Whether a character is an ASCII lowercase letter or digit (the left side
of the camel case regex in utils.py line 5). -/
def isLowerOrDigit (c : Char) : Bool :=
  (decide ('a' ≤ c) && decide (c ≤ 'z')) || pyIsDigit c

/-- Whether a character is an ASCII uppercase letter. -/
def isUpperChar (c : Char) : Bool :=
  decide ('A' ≤ c) && decide (c ≤ 'Z')

/-- The regex substitution of utils.title: insert a space between a
lowercase letter or digit and a following uppercase letter. -/
def insertCamelSpaces : List Char → List Char
  | a :: b :: rest =>
      if isLowerOrDigit a && isUpperChar b then a :: ' ' :: insertCamelSpaces (b :: rest)
      else a :: insertCamelSpaces (b :: rest)
  | l => l

/-- Python str.title over the ASCII range: the first letter of each alpha
run is uppercased, later letters are lowercased. -/
def pyTitleAux : Bool → List Char → List Char
  | _, [] => []
  | prevAlpha, c :: rest =>
      let isAl := c.isAlpha
      let c1 := if isAl then (if prevAlpha then c.toLower else c.toUpper) else c
      c1 :: pyTitleAux isAl rest

/-- utils.title (utils.py lines 4-6): camel space insertion, underscores to
spaces, then title case. -/
def title (s : List Char) : List Char :=
  pyTitleAux false ((insertCamelSpaces s).map (fun c => if c = '_' then ' ' else c))

/-- A Python attribute value stored in a kwargs dict. -/
inductive PyVal where
  | num (n : PyNum)
  | str (s : List Char)
  | bool (b : Bool)
  | none
deriving DecidableEq, Repr

/-- Python truthiness for the stored values. -/
def PyVal.truthy : PyVal → Bool
  | .none => false
  | .str s => !s.isEmpty
  | .bool b => b
  | .num n => decide (n.toQ ≠ 0)

/-- A Python dict with string keys: an insertion ordered association list
with unique keys. -/
abbrev PyDict := List (String × PyVal)

/-- Python d[k] read. -/
def PyDict.get (d : PyDict) (k : String) : Option PyVal :=
  alookup k d

/-- Python d[k] = v: overwrite in place, or append a new entry. -/
def PyDict.set (d : PyDict) (k : String) (v : PyVal) : PyDict :=
  if (d.map Prod.fst).contains k then
    d.map (fun p => if p.1 = k then (k, v) else p)
  else d ++ [(k, v)]

/-- Python d.update(e). -/
def PyDict.update (d e : PyDict) : PyDict :=
  e.foldl (fun acc p => acc.set p.1 p.2) d

/-- Python d.pop(k): the value and the shrunk dict, or a KeyError. -/
def PyDict.pop (d : PyDict) (k : String) : Option (PyVal × PyDict) :=
  match d.get k with
  | some v => some (v, d.filter (fun p => decide (p.1 ≠ k)))
  | Option.none => Option.none

/-- A PropertyWidget as its stored configuration record: the kwargs dict
kept at widgets.py line 33 so the widget can be cloned later. The
attribute injection loop and its collision check (lines 38-43) build UI
state not needed by the claims. -/
structure PropertyWidget where
  kwargs : PyDict
deriving DecidableEq, Repr

/-- The PropertyWidget class defaults (widgets.py lines 17-19). -/
def PropertyWidget.defaults : PyDict :=
  [("default", PyVal.none)]

/-- PropertyWidget.__init__ plus init_kwargs (widgets.py lines 21-43):
name is written into the incoming kwargs, class defaults are merged
under them, the merged dict is stored, and a label is derived from a
truthy string name when absent. -/
def PropertyWidget.init (name : PyVal) (kwargs : PyDict) : PropertyWidget :=
  let kwargs1 := PyDict.set kwargs "name" name
  let kwargs2 := PyDict.update PropertyWidget.defaults kwargs1
  let kwargs3 :=
    match name with
    | .str s =>
        if !s.isEmpty && (kwargs2.get "label").isNone then
          PyDict.set kwargs2 "label" (.str (title s))
        else kwargs2
    | _ => kwargs2
  ⟨kwargs3⟩

/-- PropertyWidget.from_widget (widgets.py lines 69-79). new_kwargs aliases
the kwargs dict of the source widget, so the update with the overrides
and the pop of the name mutate the source in place; the source is
returned in its mutated state next to the new widget. Popping a missing
name raises KeyError. The isinstance check is a same-variant check and
the claims use a single variant. -/
def PropertyWidget.from_widget (widget : PropertyWidget) (kwargs : PyDict) :
    Except PyErr (PropertyWidget × PropertyWidget) :=
  let newKwargs := PyDict.update widget.kwargs kwargs
  match PyDict.pop newKwargs "name" with
  | Option.none => .error .keyError
  | some (name, newKwargs1) =>
      .ok (PropertyWidget.init name newKwargs1, ⟨newKwargs1⟩)

/-- The sign part of a formatted fixed point text (analysis helper). -/
def fmtSgn (N : Int) : List Char :=
  if N < 0 then ['-'] else []

/-- The integer digit part (leading zeros included) of the text produced by
formatFloatPadded at value N / 10 ^ f, width W, f decimals (analysis
helper). -/
def fmtIpart (N : Int) (W f : Nat) : List Char :=
  zeros (W - ((if N < 0 then 1 else 0) + ((natDigits (N.natAbs / 10 ^ f)).length + (1 + f)))) ++
    natDigits (N.natAbs / 10 ^ f)

/-- The decimal digit part of the same text (analysis helper). -/
def fmtFpart (N : Int) (f : Nat) : List Char :=
  zeroFill f (N.natAbs % 10 ^ f)

/-
Lemmas: decimal digit texts.
-/

theorem pyIsDigit_digitChar {d : Nat} (h : d < 10) : pyIsDigit (digitChar d) = true := by
  interval_cases d <;> decide

theorem charVal_digitChar {d : Nat} (h : d < 10) : charVal (digitChar d) = d := by
  interval_cases d <;> decide

theorem pyIsDigit_ne_minus {c : Char} (h : pyIsDigit c = true) : c ≠ '-' := by
  intro hc
  subst hc
  exact absurd h (by decide)

theorem pyIsDigit_ne_plus {c : Char} (h : pyIsDigit c = true) : c ≠ '+' := by
  intro hc
  subst hc
  exact absurd h (by decide)

theorem pyIsDigit_ne_dot {c : Char} (h : pyIsDigit c = true) : c ≠ '.' := by
  intro hc
  subst hc
  exact absurd h (by decide)

theorem digitsVal_append_singleton (xs : List Char) (c : Char) :
    digitsVal (xs ++ [c]) = 10 * digitsVal xs + charVal c := by
  simp [digitsVal, List.foldl_append]

theorem digitsVal_zeros_prepend (k : Nat) (cs : List Char) :
    digitsVal (zeros k ++ cs) = digitsVal cs := by
  induction k with
  | zero => simp [zeros]
  | succ k ih =>
      have h : zeros (k + 1) ++ cs = '0' :: (zeros k ++ cs) := by
        simp [zeros, List.replicate_succ]
      rw [h]
      show List.foldl (fun a c => 10 * a + charVal c) (10 * 0 + charVal '0') (zeros k ++ cs)
        = digitsVal cs
      have h0 : 10 * 0 + charVal '0' = 0 := by decide
      rw [h0]
      exact ih

theorem digitsVal_revAux : ∀ (fuel n : Nat), n ≤ fuel →
    digitsVal (natDigitsRevAux fuel n).reverse = n := by
  intro fuel
  induction fuel with
  | zero =>
      intro n h
      interval_cases n
      rfl
  | succ fuel ih =>
      intro n h
      match n with
      | 0 => rfl
      | n + 1 =>
          have hdiv : (n + 1) / 10 < n + 1 := Nat.div_lt_self (Nat.succ_pos n) (by norm_num)
          have hdivle : (n + 1) / 10 ≤ fuel := by omega
          have hmod : (n + 1) % 10 < 10 := Nat.mod_lt _ (by norm_num)
          show digitsVal (digitChar ((n + 1) % 10) :: natDigitsRevAux fuel ((n + 1) / 10)).reverse
            = n + 1
          rw [List.reverse_cons, digitsVal_append_singleton, ih _ hdivle,
            charVal_digitChar hmod]
          omega

theorem digitsVal_natDigits (n : Nat) : digitsVal (natDigits n) = n := by
  by_cases h : n = 0
  · subst h; decide
  · rw [natDigits, if_neg h]
    exact digitsVal_revAux n n le_rfl

theorem natDigitsRevAux_all (fuel n : Nat) :
    (natDigitsRevAux fuel n).all pyIsDigit = true := by
  induction fuel generalizing n with
  | zero => cases n <;> rfl
  | succ fuel ih =>
      match n with
      | 0 => rfl
      | n + 1 =>
          have hmod : (n + 1) % 10 < 10 := Nat.mod_lt _ (by norm_num)
          show ((digitChar ((n + 1) % 10)) :: natDigitsRevAux fuel ((n + 1) / 10)).all
            pyIsDigit = true
          rw [List.all_cons, pyIsDigit_digitChar hmod, ih]
          rfl

theorem natDigits_all (n : Nat) : (natDigits n).all pyIsDigit = true := by
  by_cases h : n = 0
  · subst h; decide
  · rw [natDigits, if_neg h, List.all_reverse]
    exact natDigitsRevAux_all n n

theorem natDigits_ne_nil (n : Nat) : natDigits n ≠ [] := by
  by_cases h : n = 0
  · subst h; decide
  · rw [natDigits, if_neg h]
    match n, h with
    | n + 1, _ =>
        show (digitChar ((n + 1) % 10) :: natDigitsRevAux n ((n + 1) / 10)).reverse ≠ []
        simp

theorem zeros_all (k : Nat) : (zeros k).all pyIsDigit = true := by
  rw [List.all_eq_true]
  intro c hc
  rw [List.eq_of_mem_replicate hc]
  decide

theorem pyParseIntCore_eq {cs : List Char} (h1 : cs ≠ []) (h2 : cs.all pyIsDigit = true) :
    pyParseIntCore cs = some ((digitsVal cs : Int)) := by
  rw [pyParseIntCore, if_pos]
  rw [Bool.and_eq_true, h2]
  refine ⟨?_, rfl⟩
  simp [List.isEmpty_iff, h1]

theorem pyParseInt_all_digits {cs : List Char} (h : cs.all pyIsDigit = true) :
    pyParseInt cs = pyParseIntCore cs := by
  cases cs with
  | nil => rfl
  | cons c rest =>
      have hc : pyIsDigit c = true := by
        rw [List.all_cons, Bool.and_eq_true] at h
        exact h.1
      rw [pyParseInt, List.head?_cons, if_neg, if_neg]
      · simp [pyIsDigit_ne_plus hc]
      · simp [pyIsDigit_ne_minus hc]

theorem formatIntPadded_eq (v : Int) (p : Nat) :
    formatIntPadded v p =
      (if v < 0 then ['-'] else []) ++
        (zeros (p - (if v < 0 then 1 else 0) - (natDigits v.natAbs).length) ++
          natDigits v.natAbs) := by
  rw [formatIntPadded]
  by_cases h : v < 0
  · simp [h]
  · simp [h]

theorem pyParseInt_formatIntPadded (v : Int) (p : Nat) :
    pyParseInt (formatIntPadded v p) = some v := by
  rw [formatIntPadded_eq]
  have hall : (zeros (p - (if v < 0 then 1 else 0) - (natDigits v.natAbs).length) ++
      natDigits v.natAbs).all pyIsDigit = true := by
    rw [List.all_append, zeros_all, natDigits_all]
    rfl
  have hne : (zeros (p - (if v < 0 then 1 else 0) - (natDigits v.natAbs).length) ++
      natDigits v.natAbs) ≠ [] := by
    intro hcontra
    exact natDigits_ne_nil v.natAbs (List.append_eq_nil.mp hcontra).2
  have hval : digitsVal (zeros (p - (if v < 0 then 1 else 0) - (natDigits v.natAbs).length) ++
      natDigits v.natAbs) = v.natAbs := by
    rw [digitsVal_zeros_prepend, digitsVal_natDigits]
  by_cases h : v < 0
  · have hshape : (if v < 0 then ['-'] else []) ++
        (zeros (p - (if v < 0 then 1 else 0) - (natDigits v.natAbs).length) ++
          natDigits v.natAbs) =
        '-' :: (zeros (p - (if v < 0 then 1 else 0) - (natDigits v.natAbs).length) ++
          natDigits v.natAbs) := by
      rw [if_pos h]
      rfl
    rw [hshape, pyParseInt, List.head?_cons, if_pos rfl]
    simp only [List.tail_cons]
    rw [pyParseIntCore_eq hne hall]
    rw [Option.map_some', hval]
    congr 1
    omega
  · have hshape : (if v < 0 then ['-'] else []) ++
        (zeros (p - (if v < 0 then 1 else 0) - (natDigits v.natAbs).length) ++
          natDigits v.natAbs) =
        zeros (p - (if v < 0 then 1 else 0) - (natDigits v.natAbs).length) ++
          natDigits v.natAbs := by
      rw [if_neg h]
      rfl
    rw [hshape, pyParseInt_all_digits hall, pyParseIntCore_eq hne hall]
    rw [hval]
    congr 1
    omega

theorem digitCount_append (xs ys : List Char) :
    digitCount (xs ++ ys) = digitCount xs + digitCount ys := by
  simp [digitCount, List.filter_append]

theorem digitCount_of_all {cs : List Char} (h : cs.all pyIsDigit = true) :
    digitCount cs = cs.length := by
  rw [digitCount, List.filter_eq_self.mpr]
  rw [List.all_eq_true] at h
  exact h

theorem digitCount_zeros (k : Nat) : digitCount (zeros k) = k := by
  rw [digitCount_of_all (zeros_all k)]
  simp [zeros]

theorem digitCount_natDigits (n : Nat) : digitCount (natDigits n) = (natDigits n).length :=
  digitCount_of_all (natDigits_all n)

theorem digitCount_formatIntPadded (v : Int) (p : Nat) :
    digitCount (formatIntPadded v p) =
      max (p - (if v < 0 then 1 else 0)) (natDigits v.natAbs).length := by
  rw [formatIntPadded_eq, digitCount_append, digitCount_append, digitCount_zeros,
    digitCount_natDigits]
  have hsgn : digitCount (if v < 0 then ['-'] else []) = 0 := by
    by_cases h : v < 0
    · rw [if_pos h]
      decide
    · rw [if_neg h]
      decide
  rw [hsgn]
  omega

theorem length_formatIntPadded (v : Int) (p : Nat) :
    (formatIntPadded v p).length =
      (if v < 0 then 1 else 0) +
        max (p - (if v < 0 then 1 else 0)) (natDigits v.natAbs).length := by
  rw [formatIntPadded_eq]
  by_cases h : v < 0
  · rw [if_pos h]
    simp only [List.length_append, List.length_cons, List.length_nil, zeros,
      List.length_replicate, if_pos h]
    omega
  · rw [if_neg h]
    simp only [List.length_append, List.length_nil, zeros, List.length_replicate, if_neg h]
    omega

theorem getD_digit_suffix {pre suf : List Char} (h : suf.all pyIsDigit = true)
    {i : Nat} (h1 : 1 ≤ i) (h2 : i ≤ suf.length) :
    pyIsDigit ((pre ++ suf).getD ((pre ++ suf).length - i) ' ') = true := by
  have hlen : (pre ++ suf).length = pre.length + suf.length := by simp
  have hpos : (pre ++ suf).length - i = pre.length + (suf.length - i) := by omega
  rw [hpos, List.getD_append_right pre suf ' ' _ (Nat.le_add_right _ _),
    Nat.add_sub_cancel_left]
  have hlt : suf.length - i < suf.length := by omega
  rw [List.getD_eq_getElem suf ' ' hlt]
  rw [List.all_eq_true] at h
  exact h _ (List.getElem_mem hlt)

theorem int_step_canonical
    (s : IntLineEdit) (add : Bool) (sgn ds : List Char) (p : Nat) (v1 : Int)
    (hsgn : sgn = [] ∨ sgn = ['-'] ∨ sgn = ['+'])
    (hds : ds ≠ []) (hall : ds.all pyIsDigit = true)
    (htext : s.text = sgn ++ ds)
    (hpos : (match s.selection with | some sel => sel.1 | none => s.cursor) = p)
    (hp1 : sgn.length ≤ p) (hp2 : p < sgn.length + ds.length)
    (hv1 : v1 = s.value + (if add then 1 else -1) * 10 ^ (sgn.length + ds.length - p - 1))
    (hlo : s.bottom ≤ v1) (hhi : v1 ≤ s.top) :
    s.step add =
      ({ s with
          text := formatIntPadded v1 (ds.length + if v1 < 0 then 1 else 0),
          storedValue := v1,
          selection := some
            ((formatIntPadded v1 (ds.length + if v1 < 0 then 1 else 0)).length -
              (sgn.length + ds.length - p), 1),
          cursor :=
            (formatIntPadded v1 (ds.length + if v1 < 0 then 1 else 0)).length -
              (sgn.length + ds.length - p) + 1 }, true) := by
  have hlen : s.text.length = sgn.length + ds.length := by
    rw [htext]
    simp
  have htne : s.text ≠ [] := by
    rw [htext]
    intro hcontra
    exact hds (List.append_eq_nil.mp hcontra).2
  have htne' : s.text.isEmpty = false := by
    simp [List.isEmpty_iff, htne]
  have hi1 : 1 ≤ sgn.length + ds.length - p := by omega
  have hi2 : sgn.length + ds.length - p ≤ ds.length := by omega
  have hdig : pyIsDigit (s.text.getD p ' ') = true := by
    have hp' : p = (sgn ++ ds).length - (sgn.length + ds.length - p) := by
      simp only [List.length_append]
      omega
    rw [htext, hp']
    exact getD_digit_suffix hall hi1 hi2
  have hguard : ¬ (p < s.text.length ∧ pyIsDigit (s.text.getD p ' ') = false) := by
    intro hcontra
    rw [hdig] at hcontra
    exact absurd hcontra.2 (by simp)
  have hs0 : digitCount sgn = 0 := by
    rcases hsgn with h | h | h <;> subst h <;> decide
  have hdc : digitCount s.text = ds.length := by
    rw [htext, digitCount_append, digitCount_of_all hall, hs0]
    omega
  have hstepidx : IntLineEdit.step_index s.text p = sgn.length + ds.length - p := by
    rw [IntLineEdit.step_index, hlen]
    omega
  have hmvt : IntLineEdit.match_value_to_text v1 s.text (sgn.length + ds.length - p - 1) =
      formatIntPadded v1 (ds.length + if v1 < 0 then 1 else 0) := by
    rw [IntLineEdit.match_value_to_text, hdc]
  have hacc : intAcceptable s.bottom s.top
      (formatIntPadded v1 (ds.length + if v1 < 0 then 1 else 0)) = true := by
    rw [intAcceptable, pyParseInt_formatIntPadded]
    simp [hlo, hhi]
  rw [IntLineEdit.step]
  simp only [htne', Bool.false_eq_true, if_false, hpos]
  rw [if_neg hguard, IntLineEdit.step_exponent, hstepidx, ← hv1, hmvt, if_pos hacc]
  rw [IntLineEdit.step_index_to_position]
  rfl

theorem int_step_up_down
    (bottom top v0 sv : Int) (sgn ds : List Char) (p0 : Nat)
    (hsgn : sgn = [] ∨ sgn = ['-'] ∨ sgn = ['+'])
    (hds : ds ≠ []) (hall : ds.all pyIsDigit = true)
    (hp1 : sgn.length ≤ p0) (hp2 : p0 < sgn.length + ds.length)
    (hv0 : pyParseInt (sgn ++ ds) = some v0)
    (hlo : bottom ≤ v0) (hhi : v0 ≤ top)
    (hlo1 : bottom ≤ v0 + 10 ^ (sgn.length + ds.length - p0 - 1))
    (hhi1 : v0 + 10 ^ (sgn.length + ds.length - p0 - 1) ≤ top) :
    ((⟨sgn ++ ds, sv, p0, none, bottom, top, false⟩ : IntLineEdit).step true).2 = true ∧
    ((((⟨sgn ++ ds, sv, p0, none, bottom, top, false⟩ : IntLineEdit).step true).1.step
        false)).2 = true ∧
    ((((⟨sgn ++ ds, sv, p0, none, bottom, top, false⟩ : IntLineEdit).step true).1.step
        false)).1.value = v0 ∧
    ((((⟨sgn ++ ds, sv, p0, none, bottom, top, false⟩ : IntLineEdit).step true).1.step
        false)).1.storedValue = v0 ∧
    (((⟨sgn ++ ds, sv, p0, none, bottom, top, false⟩ : IntLineEdit).step true).1.selection =
      some ((((⟨sgn ++ ds, sv, p0, none, bottom, top, false⟩ : IntLineEdit).step
        true).1.text.length - (sgn.length + ds.length - p0), 1))) ∧
    ((((⟨sgn ++ ds, sv, p0, none, bottom, top, false⟩ : IntLineEdit).step true).1.step
        false)).1.selection =
      some (((((⟨sgn ++ ds, sv, p0, none, bottom, top, false⟩ : IntLineEdit).step
        true).1.step false)).1.text.length - (sgn.length + ds.length - p0), 1) ∧
    (sgn.length + ds.length - p0) ≤
      (((⟨sgn ++ ds, sv, p0, none, bottom, top, false⟩ : IntLineEdit).step
        true).1.text.length) ∧
    (sgn.length + ds.length - p0) ≤
      ((((⟨sgn ++ ds, sv, p0, none, bottom, top, false⟩ : IntLineEdit).step true).1.step
        false)).1.text.length := by
  set i := sgn.length + ds.length - p0 with hidef
  set e := i - 1 with hedef
  set v1 := v0 + 10 ^ e with hv1def
  set s0 : IntLineEdit := ⟨sgn ++ ds, sv, p0, none, bottom, top, false⟩ with hs0def
  have hs0val : s0.value = v0 := by
    rw [IntLineEdit.value, hs0def, hv0]
    rfl
  have h1 := int_step_canonical s0 true sgn ds p0 v1 hsgn hds hall rfl rfl hp1 hp2
    (by rw [hs0val, if_pos rfl, one_mul, hv1def]) hlo1 hhi1
  set pad1 := ds.length + if v1 < 0 then 1 else 0 with hpad1def
  set t1 := formatIntPadded v1 pad1 with ht1def
  set sgn1 : List Char := if v1 < 0 then ['-'] else [] with hsgn1def
  set rest1 := zeros (pad1 - (if v1 < 0 then 1 else 0) - (natDigits v1.natAbs).length) ++
    natDigits v1.natAbs with hrest1def
  have ht1eq : t1 = sgn1 ++ rest1 := formatIntPadded_eq v1 pad1
  have hsgn1len : sgn1.length = if v1 < 0 then 1 else 0 := by
    by_cases h : v1 < 0 <;> simp [hsgn1def, h]
  have hall1 : rest1.all pyIsDigit = true := by
    rw [hrest1def, List.all_append, zeros_all, natDigits_all]
    rfl
  have hds1 : rest1 ≠ [] := by
    rw [hrest1def]
    intro hcontra
    exact natDigits_ne_nil v1.natAbs (List.append_eq_nil.mp hcontra).2
  have hrest1len : rest1.length = digitCount t1 := by
    rw [ht1eq, digitCount_append, digitCount_of_all hall1]
    have : digitCount sgn1 = 0 := by
      by_cases h : v1 < 0 <;> simp [hsgn1def, h] <;> decide
    omega
  have hdc1 : digitCount t1 = max (pad1 - (if v1 < 0 then 1 else 0))
      (natDigits v1.natAbs).length := digitCount_formatIntPadded v1 pad1
  have hige : 1 ≤ i := by omega
  have hile : i ≤ ds.length := by omega
  have hrest1ge : i ≤ rest1.length := by
    rw [hrest1len, hdc1]
    omega
  have ht1len : t1.length = sgn1.length + rest1.length := by
    rw [ht1eq]
    simp
  have hs1 : (s0.step true).1 =
      { s0 with
        text := t1, storedValue := v1,
        selection := some (t1.length - i, 1),
        cursor := t1.length - i + 1 } := by
    rw [h1]
  have hs1b : (s0.step true).2 = true := by rw [h1]
  set s1 : IntLineEdit :=
    { s0 with
      text := t1, storedValue := v1,
      selection := some (t1.length - i, 1),
      cursor := t1.length - i + 1 } with hs1def
  have hs1val : s1.value = v1 := by
    rw [IntLineEdit.value]
    show (pyParseInt t1).getD 0 = v1
    rw [ht1def, pyParseInt_formatIntPadded]
    rfl
  have hp1' : sgn1.length ≤ t1.length - i := by omega
  have hp2' : t1.length - i < sgn1.length + rest1.length := by omega
  have hv2 : v0 = s1.value + (if false then 1 else -1) *
      10 ^ (sgn1.length + rest1.length - (t1.length - i) - 1) := by
    rw [hs1val, if_neg (by simp)]
    have hexp : sgn1.length + rest1.length - (t1.length - i) - 1 = e := by omega
    rw [hexp, hv1def]
    ring
  have h2 := int_step_canonical s1 false sgn1 rest1 (t1.length - i) v0
    (by by_cases h : v1 < 0 <;> simp [hsgn1def, h])
    hds1 hall1 (by rw [hs1def]; exact ht1eq) rfl hp1' hp2' hv2 hlo hhi
  set pad2 := rest1.length + if v0 < 0 then 1 else 0 with hpad2def
  set t2 := formatIntPadded v0 pad2 with ht2def
  have hdc2 : digitCount t2 = max (pad2 - (if v0 < 0 then 1 else 0))
      (natDigits v0.natAbs).length := digitCount_formatIntPadded v0 pad2
  have ht2ge : i ≤ t2.length := by
    have hcle : digitCount t2 ≤ t2.length := by
      rw [digitCount]
      exact List.length_filter_le _ _
    rw [hdc2] at hcle
    omega
  have hsel2 : sgn1.length + rest1.length - (t1.length - i) = i := by omega
  rw [hs1b]
  rw [show (s0.step true).1 = s1 from hs1]
  rw [h2]
  refine ⟨rfl, rfl, ?_, rfl, rfl, ?_, ?_, ?_⟩
  · show (pyParseInt t2).getD 0 = v0
    rw [ht2def, pyParseInt_formatIntPadded]
    rfl
  · show some (t2.length - (sgn1.length + rest1.length - (t1.length - i)), 1) =
      some (t2.length - i, 1)
    rw [hsel2]
  · have hst : s1.text.length = t1.length := rfl
    omega
  · exact ht2ge

/-
Lemmas: float texts.
-/

theorem takeWhile_all {p : Char → Bool} : ∀ {xs : List Char}, xs.all p = true →
    xs.takeWhile p = xs := by
  intro xs
  induction xs with
  | nil => intro _; rfl
  | cons c rest ih =>
      intro h
      rw [List.all_cons, Bool.and_eq_true] at h
      rw [List.takeWhile_cons, h.1]
      simp [ih h.2]

theorem dropWhile_all {p : Char → Bool} : ∀ {xs : List Char}, xs.all p = true →
    xs.dropWhile p = [] := by
  intro xs
  induction xs with
  | nil => intro _; rfl
  | cons c rest ih =>
      intro h
      rw [List.all_cons, Bool.and_eq_true] at h
      rw [List.dropWhile_cons, h.1]
      simp [ih h.2]

theorem takeWhile_append_not {p : Char → Bool} {c : Char} (hc : p c = false) :
    ∀ {xs : List Char} (ys : List Char), xs.all p = true →
    (xs ++ c :: ys).takeWhile p = xs := by
  intro xs
  induction xs with
  | nil =>
      intro ys _
      simp [List.takeWhile_cons, hc]
  | cons a rest ih =>
      intro ys h
      rw [List.all_cons, Bool.and_eq_true] at h
      rw [List.cons_append, List.takeWhile_cons, h.1]
      simp [ih ys h.2]

theorem dropWhile_append_not {p : Char → Bool} {c : Char} (hc : p c = false) :
    ∀ {xs : List Char} (ys : List Char), xs.all p = true →
    (xs ++ c :: ys).dropWhile p = c :: ys := by
  intro xs
  induction xs with
  | nil =>
      intro ys _
      simp [List.dropWhile_cons, hc]
  | cons a rest ih =>
      intro ys h
      rw [List.all_cons, Bool.and_eq_true] at h
      rw [List.cons_append, List.dropWhile_cons, h.1]
      simp [ih ys h.2]

theorem decIndex_no_dot : ∀ {xs : List Char}, (∀ c ∈ xs, c ≠ '.') →
    decIndex xs = none := by
  intro xs
  induction xs with
  | nil => intro _; rfl
  | cons c rest ih =>
      intro h
      rw [decIndex, if_neg (h c (List.mem_cons_self c rest)), ih]
      · rfl
      · intro a ha
        exact h a (List.mem_cons_of_mem c ha)

theorem decIndex_append_dot : ∀ {xs : List Char} (ys : List Char), (∀ c ∈ xs, c ≠ '.') →
    decIndex (xs ++ '.' :: ys) = some xs.length := by
  intro xs
  induction xs with
  | nil =>
      intro ys _
      rw [List.nil_append, decIndex, if_pos rfl]
      rfl
  | cons c rest ih =>
      intro ys h
      rw [List.cons_append, decIndex, if_neg (h c (List.mem_cons_self c rest)),
        ih ys (fun a ha => h a (List.mem_cons_of_mem c ha))]
      rfl

theorem all_digits_no_dot {xs : List Char} (h : xs.all pyIsDigit = true) :
    ∀ c ∈ xs, c ≠ '.' := by
  rw [List.all_eq_true] at h
  exact fun c hc => pyIsDigit_ne_dot (h c hc)

theorem natDigitsRevAux_length_le : ∀ (fuel n d : Nat), n ≤ fuel → n < 10 ^ d →
    (natDigitsRevAux fuel n).length ≤ d := by
  intro fuel
  induction fuel with
  | zero =>
      intro n d h _
      interval_cases n
      simp [natDigitsRevAux]
  | succ fuel ih =>
      intro n d h hn
      match n with
      | 0 => simp [natDigitsRevAux]
      | n + 1 =>
          have hd : 1 ≤ d := by
            by_contra hcontra
            push_neg at hcontra
            interval_cases d
            omega
          have hdiv : (n + 1) / 10 < 10 ^ (d - 1) := by
            have h10 : (10 : Nat) ^ d = 10 ^ (d - 1) * 10 := by
              conv in 10 ^ d => rw [show d = (d - 1) + 1 by omega]
              rw [pow_succ]
            rw [Nat.div_lt_iff_lt_mul (by norm_num)]
            omega
          have hdivle : (n + 1) / 10 ≤ fuel := by
            have : (n + 1) / 10 < n + 1 := Nat.div_lt_self (Nat.succ_pos n) (by norm_num)
            omega
          show (digitChar ((n + 1) % 10) :: natDigitsRevAux fuel ((n + 1) / 10)).length ≤ d
          rw [List.length_cons]
          have := ih ((n + 1) / 10) (d - 1) hdivle hdiv
          omega

theorem natDigits_length_le {n d : Nat} (h1 : n < 10 ^ d) (h2 : 1 ≤ d) :
    (natDigits n).length ≤ d := by
  by_cases h : n = 0
  · subst h
    simp [natDigits]
    omega
  · rw [natDigits, if_neg h, List.length_reverse]
    exact natDigitsRevAux_length_le n n d le_rfl h1

theorem zeroFill_length {d m : Nat} (h : m < 10 ^ d) (hd : 1 ≤ d) :
    (zeroFill d m).length = d := by
  rw [zeroFill]
  have hle := natDigits_length_le h hd
  simp only [List.length_append, zeros, List.length_replicate]
  omega

theorem zeroFill_all (d m : Nat) : (zeroFill d m).all pyIsDigit = true := by
  rw [zeroFill, List.all_append, zeros_all, natDigits_all]
  rfl

theorem digitsVal_zeroFill (d m : Nat) : digitsVal (zeroFill d m) = m := by
  rw [zeroFill, digitsVal_zeros_prepend, digitsVal_natDigits]

theorem pyParseFloatCore_digits {cs : List Char} (h1 : cs ≠ []) (h2 : cs.all pyIsDigit = true) :
    pyParseFloatCore cs = some ((digitsVal cs : Int) : Rat) := by
  simp only [pyParseFloatCore]
  rw [takeWhile_all h2, dropWhile_all h2]
  simp [List.isEmpty_iff, h1]

theorem pyParseFloatCore_dot {I F : List Char} (hI : I ≠ []) (hIa : I.all pyIsDigit = true)
    (hFa : F.all pyIsDigit = true) :
    pyParseFloatCore (I ++ '.' :: F) =
      some (((digitsVal I : Int) : Rat) + ((digitsVal F : Int) : Rat) / 10 ^ F.length) := by
  simp only [pyParseFloatCore]
  rw [takeWhile_append_not (by decide) F hIa, dropWhile_append_not (by decide) F hIa]
  simp [hFa, List.isEmpty_iff, hI]

theorem pyParseFloat_cons_digit {c : Char} (rest : List Char) (hc : pyIsDigit c = true) :
    pyParseFloat (c :: rest) = pyParseFloatCore (c :: rest) := by
  rw [pyParseFloat, List.head?_cons, if_neg, if_neg]
  · simp [pyIsDigit_ne_plus hc]
  · simp [pyIsDigit_ne_minus hc]

theorem pyParseFloat_sgn_digits (neg : Bool) (X : List Char) (hne : X ≠ [])
    (hall : X.all pyIsDigit = true) :
    pyParseFloat ((if neg then ['-'] else []) ++ X) =
      some ((if neg then -1 else 1) * ((digitsVal X : Int) : Rat)) := by
  cases neg with
  | false =>
      obtain ⟨c, rest, rfl⟩ := List.exists_cons_of_ne_nil hne
      have hc : pyIsDigit c = true := by
        rw [List.all_cons, Bool.and_eq_true] at hall
        exact hall.1
      rw [if_neg (by simp)]
      show pyParseFloat (c :: rest) = _
      rw [pyParseFloat_cons_digit rest hc, pyParseFloatCore_digits (by simp) hall]
      simp
  | true =>
      rw [if_pos rfl]
      show pyParseFloat ('-' :: X) = _
      rw [pyParseFloat, List.head?_cons, if_pos rfl]
      simp only [List.tail_cons]
      rw [pyParseFloatCore_digits hne hall]
      simp

theorem pyParseFloat_sgn_dot (neg : Bool) (I F : List Char) (hI : I ≠ [])
    (hIa : I.all pyIsDigit = true) (hFa : F.all pyIsDigit = true) :
    pyParseFloat ((if neg then ['-'] else []) ++ (I ++ '.' :: F)) =
      some ((if neg then -1 else 1) *
        (((digitsVal I : Int) : Rat) + ((digitsVal F : Int) : Rat) / 10 ^ F.length)) := by
  cases neg with
  | false =>
      obtain ⟨c, rest, rfl⟩ := List.exists_cons_of_ne_nil hI
      have hc : pyIsDigit c = true := by
        rw [List.all_cons, Bool.and_eq_true] at hIa
        exact hIa.1
      rw [if_neg (by simp)]
      show pyParseFloat (c :: (rest ++ '.' :: F)) = _
      rw [pyParseFloat_cons_digit _ hc]
      rw [show c :: (rest ++ '.' :: F) = (c :: rest) ++ '.' :: F from rfl]
      rw [pyParseFloatCore_dot (List.cons_ne_nil c rest) hIa hFa]
      simp
  | true =>
      rw [if_pos rfl]
      show pyParseFloat ('-' :: (I ++ '.' :: F)) = _
      rw [pyParseFloat, List.head?_cons, if_pos rfl]
      simp only [List.tail_cons]
      rw [pyParseFloatCore_dot hI hIa hFa]
      simp

theorem pyRoundInt_intCast (n : Int) : pyRoundInt ((n : Int) : Rat) = n := by
  rw [pyRoundInt]
  norm_num

theorem formatFloatPadded_struct0 (q : Rat) (w : Nat) (n : Int)
    (hn : pyRoundInt (q * 10 ^ (0 : Nat)) = n) :
    formatFloatPadded q w 0 =
      (if n < 0 then ['-'] else []) ++
        (zeros (w - ((if n < 0 then 1 else 0) + (natDigits n.natAbs).length)) ++
          natDigits n.natAbs) := by
  rw [formatFloatPadded, hn]
  rw [if_pos rfl]
  simp only [pow_zero, Nat.div_one, List.append_nil]
  by_cases h : n < 0
  · rw [if_pos h]
    simp [h]
  · rw [if_neg h]
    simp [h]

theorem formatFloatPadded_struct (q : Rat) (w d : Nat) (hd : 1 ≤ d) (n : Int)
    (hn : pyRoundInt (q * 10 ^ d) = n) :
    formatFloatPadded q w d =
      (if n < 0 then ['-'] else []) ++
        ((zeros (w - ((if n < 0 then 1 else 0) +
            ((natDigits (n.natAbs / 10 ^ d)).length + (1 + d)))) ++
          natDigits (n.natAbs / 10 ^ d)) ++
        ('.' :: zeroFill d (n.natAbs % 10 ^ d))) := by
  have hfp : n.natAbs % 10 ^ d < 10 ^ d := Nat.mod_lt _ (Nat.pos_pow_of_pos d (by norm_num))
  have hflen : (zeroFill d (n.natAbs % 10 ^ d)).length = d := zeroFill_length hfp hd
  have hdif : (if d = 0 then ([] : List Char) else '.' :: zeroFill d (n.natAbs % 10 ^ d)) =
      '.' :: zeroFill d (n.natAbs % 10 ^ d) := if_neg (by omega)
  have hbody : (natDigits (n.natAbs / 10 ^ d) ++
      '.' :: zeroFill d (n.natAbs % 10 ^ d)).length =
      (natDigits (n.natAbs / 10 ^ d)).length + (1 + d) := by
    simp only [List.length_append, List.length_cons, hflen]
    omega
  rw [formatFloatPadded, hn, hdif, hbody]
  by_cases h : n < 0
  · rw [if_pos h]
    simp [h, List.append_assoc]
  · rw [if_neg h]
    simp [h, List.append_assoc]

theorem pyParseFloat_ite_digits (P : Prop) [Decidable P] (X : List Char) (hne : X ≠ [])
    (hall : X.all pyIsDigit = true) :
    pyParseFloat ((if P then ['-'] else []) ++ X) =
      some ((if P then (-1 : Rat) else 1) * ((digitsVal X : Int) : Rat)) := by
  by_cases h : P
  · rw [if_pos h, if_pos h]
    have := pyParseFloat_sgn_digits true X hne hall
    simp only [if_pos rfl] at this
    simpa using this
  · rw [if_neg h, if_neg h]
    have := pyParseFloat_sgn_digits false X hne hall
    simp only [Bool.false_eq_true, if_neg] at this
    simpa using this

theorem pyParseFloat_ite_dot (P : Prop) [Decidable P] (I F : List Char) (hI : I ≠ [])
    (hIa : I.all pyIsDigit = true) (hFa : F.all pyIsDigit = true) :
    pyParseFloat ((if P then ['-'] else []) ++ (I ++ '.' :: F)) =
      some ((if P then (-1 : Rat) else 1) *
        (((digitsVal I : Int) : Rat) + ((digitsVal F : Int) : Rat) / 10 ^ F.length)) := by
  by_cases h : P
  · rw [if_pos h, if_pos h]
    have := pyParseFloat_sgn_dot true I F hI hIa hFa
    simp only [if_pos rfl] at this
    simpa using this
  · rw [if_neg h, if_neg h]
    have := pyParseFloat_sgn_dot false I F hI hIa hFa
    simp only [Bool.false_eq_true, if_neg] at this
    simpa using this

theorem pyParseFloat_formatFloatPadded (q : Rat) (w d : Nat) :
    pyParseFloat (formatFloatPadded q w d) =
      some (((pyRoundInt (q * 10 ^ d) : Int) : Rat) / 10 ^ d) := by
  set n := pyRoundInt (q * 10 ^ d) with hn
  by_cases hd : d = 0
  · subst hd
    rw [formatFloatPadded_struct0 q w n hn.symm]
    have hne : (zeros (w - ((if n < 0 then 1 else 0) + (natDigits n.natAbs).length)) ++
        natDigits n.natAbs) ≠ [] :=
      fun hc => natDigits_ne_nil n.natAbs (List.append_eq_nil.mp hc).2
    have hall : (zeros (w - ((if n < 0 then 1 else 0) + (natDigits n.natAbs).length)) ++
        natDigits n.natAbs).all pyIsDigit = true := by
      rw [List.all_append, zeros_all, natDigits_all]
      rfl
    rw [pyParseFloat_ite_digits (n < 0) _ hne hall, digitsVal_zeros_prepend,
      digitsVal_natDigits]
    have key : (if n < 0 then (-1 : Rat) else 1) * ((n.natAbs : Int) : Rat) = (n : Rat) := by
      by_cases h : n < 0
      · rw [if_pos h]
        have h1 : ((n.natAbs : Int)) = -n := by omega
        rw [h1]
        push_cast
        ring
      · rw [if_neg h]
        have h1 : ((n.natAbs : Int)) = n := by omega
        rw [h1]
        ring
    rw [key, pow_zero, div_one]
  · have hd1 : 1 ≤ d := by omega
    have hfp : n.natAbs % 10 ^ d < 10 ^ d := Nat.mod_lt _ (Nat.pos_pow_of_pos d (by norm_num))
    rw [formatFloatPadded_struct q w d hd1 n hn.symm]
    have hne : (zeros (w - ((if n < 0 then 1 else 0) +
        ((natDigits (n.natAbs / 10 ^ d)).length + (1 + d)))) ++
        natDigits (n.natAbs / 10 ^ d)) ≠ [] :=
      fun hc => natDigits_ne_nil _ (List.append_eq_nil.mp hc).2
    have hIa : (zeros (w - ((if n < 0 then 1 else 0) +
        ((natDigits (n.natAbs / 10 ^ d)).length + (1 + d)))) ++
        natDigits (n.natAbs / 10 ^ d)).all pyIsDigit = true := by
      rw [List.all_append, zeros_all, natDigits_all]
      rfl
    rw [pyParseFloat_ite_dot (n < 0) _ _ hne hIa (zeroFill_all d (n.natAbs % 10 ^ d))]
    rw [digitsVal_zeros_prepend, digitsVal_natDigits, digitsVal_zeroFill,
      zeroFill_length hfp hd1]
    set a := n.natAbs / 10 ^ d with hadef
    set b := n.natAbs % 10 ^ d with hbdef
    have hsplit : ((a : Nat) : Rat) * 10 ^ d + ((b : Nat) : Rat) = ((n.natAbs : Nat) : Rat) := by
      have h0 : 10 ^ d * a + b = n.natAbs := Nat.div_add_mod n.natAbs (10 ^ d)
      push_cast [← h0]
      ring
    have hcasta : (((a : Int)) : Rat) = ((a : Nat) : Rat) := by norm_cast
    have hcastb : (((b : Int)) : Rat) = ((b : Nat) : Rat) := by norm_cast
    have key : (if n < 0 then (-1 : Rat) else 1) * (((a : Int)) : Rat) +
        (if n < 0 then (-1 : Rat) else 1) * ((((b : Int)) : Rat) / 10 ^ d) =
        (n : Rat) / 10 ^ d := by
      have hten : (10 : Rat) ^ d ≠ 0 := by positivity
      by_cases h : n < 0
      · have h1 : ((n.natAbs : Nat) : Rat) = -(n : Rat) := by
          rw [Int.cast_natAbs, abs_of_neg h]
          push_cast
          ring
        rw [if_pos h, hcasta, hcastb]
        field_simp
        linarith [hsplit, h1]
      · have h1 : ((n.natAbs : Nat) : Rat) = (n : Rat) := by
          have h0 : (0 : Int) ≤ n := by omega
          rw [Int.cast_natAbs, abs_of_nonneg h0]
        rw [if_neg h, hcasta, hcastb]
        field_simp
        linarith [hsplit, h1]
    rw [mul_add, key]

theorem pyRoundInt_div_pow (N : Int) (d : Nat) :
    pyRoundInt ((N : Rat) / 10 ^ d * 10 ^ d) = N := by
  have hT : (10 : Rat) ^ d ≠ 0 := by positivity
  rw [div_mul_cancel₀ _ hT, pyRoundInt_intCast]

theorem pyRound_exact (N : Int) (d : Nat) :
    pyRound ((N : Rat) / 10 ^ d) d = (N : Rat) / 10 ^ d := by
  rw [pyRound, pyRoundInt_div_pow]

theorem pyRound_zero_intCast (N : Int) : pyRound ((N : Rat)) 0 = (N : Rat) := by
  rw [pyRound]
  simp [pyRoundInt_intCast]

theorem pyParseFloat_format_exact (N : Int) (w d : Nat) :
    pyParseFloat (formatFloatPadded ((N : Rat) / 10 ^ d) w d) =
      some ((N : Rat) / 10 ^ d) := by
  rw [pyParseFloat_formatFloatPadded, pyRoundInt_div_pow]

theorem pyParseFloat_format_zero (N : Int) (w : Nat) :
    pyParseFloat (formatFloatPadded ((N : Rat)) w 0) = some ((N : Rat)) := by
  rw [pyParseFloat_formatFloatPadded]
  simp [pyRoundInt_intCast]

theorem getD_all_digits_segment {pre seg rest : List Char} (hseg : seg.all pyIsDigit = true)
    {p : Nat} (h1 : pre.length ≤ p) (h2 : p < pre.length + seg.length) :
    pyIsDigit ((pre ++ (seg ++ rest)).getD p ' ') = true := by
  rw [List.getD_append_right pre (seg ++ rest) ' ' p h1]
  have hlt : p - pre.length < seg.length := by omega
  rw [List.getD_append seg rest ' ' _ hlt, List.getD_eq_getElem seg ' ' hlt]
  rw [List.all_eq_true] at hseg
  exact hseg _ (List.getElem_mem hlt)

theorem decimalsUsed_formatFloatPadded (q : Rat) (w d : Nat) (hd : 1 ≤ d) :
    decimalsUsed (formatFloatPadded q w d) = d := by
  rw [formatFloatPadded_struct q w d hd (pyRoundInt (q * 10 ^ d)) rfl]
  set n := pyRoundInt (q * 10 ^ d) with hn
  have hfp : n.natAbs % 10 ^ d < 10 ^ d := Nat.mod_lt _ (Nat.pos_pow_of_pos d (by norm_num))
  have hflen : (zeroFill d (n.natAbs % 10 ^ d)).length = d := zeroFill_length hfp hd
  have hnodot : ∀ c ∈ (if n < 0 then ['-'] else []) ++
      (zeros (w - ((if n < 0 then 1 else 0) +
        ((natDigits (n.natAbs / 10 ^ d)).length + (1 + d)))) ++
        natDigits (n.natAbs / 10 ^ d)), c ≠ '.' := by
    intro c hc
    rw [List.mem_append] at hc
    rcases hc with hc | hc
    · by_cases h : n < 0
      · rw [if_pos h] at hc
        rw [List.mem_singleton] at hc
        subst hc
        decide
      · rw [if_neg h] at hc
        exact absurd hc (List.not_mem_nil c)
    · rw [List.mem_append] at hc
      rcases hc with hc | hc
      · rw [List.eq_of_mem_replicate hc]
        decide
      · have hnd := natDigits_all (n.natAbs / 10 ^ d)
        rw [List.all_eq_true] at hnd
        exact pyIsDigit_ne_dot (hnd c hc)
  rw [decimalsUsed, ← List.append_assoc, decIndex_append_dot _ hnodot]
  simp only [List.length_append, List.length_cons, hflen]
  omega

theorem float_step_canonical_dot
    (s : FloatLineEdit) (add : Bool) (sgn I F : List Char) (p : Nat) (N0 N1 : Int) (E : Nat)
    (hsgn : sgn = [] ∨ sgn = ['-'] ∨ sgn = ['+'])
    (hI : I ≠ []) (hIall : I.all pyIsDigit = true)
    (hF : F ≠ []) (hFall : F.all pyIsDigit = true)
    (htext : s.text = sgn ++ (I ++ '.' :: F))
    (hpos : (match s.selection with | some sel => sel.1 | none => s.cursor) = p)
    (hp : (sgn.length ≤ p ∧ p < sgn.length + I.length) ∨
      (sgn.length + I.length + 1 ≤ p ∧ p < sgn.length + I.length + 1 + F.length))
    (hval : pyParseFloat s.text = some ((N0 : Rat) / 10 ^ F.length))
    (hE : (E : Int) = (F.length : Int) +
      (if 0 ≤ ((sgn.length + I.length : Nat) : Int) - p
        then ((sgn.length + I.length : Nat) : Int) - p - 1
        else ((sgn.length + I.length : Nat) : Int) - p))
    (hN1 : N1 = N0 + (if add then 1 else -1) * 10 ^ E)
    (hdec : F.length ≤ s.decimals)
    (hlo : s.bottom ≤ (N1 : Rat) / 10 ^ F.length)
    (hhi : (N1 : Rat) / 10 ^ F.length ≤ s.top) :
    s.step add =
      ({ s with
          text := formatFloatPadded ((N1 : Rat) / 10 ^ F.length)
            (I.length + (if N1 < 0 then 1 else 0) + F.length + 1) F.length,
          storedValue := (N1 : Rat) / 10 ^ F.length,
          selection := some ((FloatLineEdit.step_index_to_position
            (((sgn.length + I.length : Nat) : Int) - p)
            (formatFloatPadded ((N1 : Rat) / 10 ^ F.length)
              (I.length + (if N1 < 0 then 1 else 0) + F.length + 1) F.length)).toNat, 1),
          cursor := (FloatLineEdit.step_index_to_position
            (((sgn.length + I.length : Nat) : Int) - p)
            (formatFloatPadded ((N1 : Rat) / 10 ^ F.length)
              (I.length + (if N1 < 0 then 1 else 0) + F.length + 1) F.length)).toNat + 1 },
        true) := by
  have hslen : sgn.length ≤ 1 := by
    rcases hsgn with h | h | h <;> subst h <;> decide
  have hs0 : digitCount sgn = 0 := by
    rcases hsgn with h | h | h <;> subst h <;> decide
  have hflen1 : 1 ≤ F.length := List.length_pos.mpr hF
  have hlen : s.text.length = sgn.length + I.length + 1 + F.length := by
    rw [htext]
    simp only [List.length_append, List.length_cons]
    omega
  have htne : s.text ≠ [] := by
    rw [htext]
    intro hcontra
    rcases List.append_eq_nil.mp hcontra with ⟨_, h2⟩
    exact hI (List.append_eq_nil.mp h2).1
  have htne' : s.text.isEmpty = false := by
    simp [List.isEmpty_iff, htne]
  have hdig : pyIsDigit (s.text.getD p ' ') = true := by
    rcases hp with ⟨h1, h2⟩ | ⟨h1, h2⟩
    · rw [htext]
      exact getD_all_digits_segment hIall h1 (by omega)
    · have hshape : s.text = (sgn ++ I ++ ['.']) ++ (F ++ []) := by
        rw [htext]
        simp
      rw [hshape]
      refine getD_all_digits_segment hFall ?_ ?_
      · simp only [List.length_append, List.length_cons, List.length_nil]
        omega
      · simp only [List.length_append, List.length_cons, List.length_nil]
        omega
  have hguard : ¬ (p < s.text.length ∧ pyIsDigit (s.text.getD p ' ') = false) := by
    intro hcontra
    rw [hdig] at hcontra
    exact absurd hcontra.2 (by simp)
  have hnodotsgnI : ∀ c ∈ sgn ++ I, c ≠ '.' := by
    intro c hc
    rw [List.mem_append] at hc
    rcases hc with hc | hc
    · rcases hsgn with h | h | h <;> subst h
      · exact absurd hc (List.not_mem_nil c)
      · rw [List.mem_singleton] at hc
        subst hc
        decide
      · rw [List.mem_singleton] at hc
        subst hc
        decide
    · have hnd := hIall
      rw [List.all_eq_true] at hnd
      exact pyIsDigit_ne_dot (hnd c hc)
  have hdecidx : decIndex s.text = some (sgn.length + I.length) := by
    rw [htext, ← List.append_assoc, decIndex_append_dot F hnodotsgnI]
    simp
  have hstepidx : FloatLineEdit.step_index s.text p =
      ((sgn.length + I.length : Nat) : Int) - p := by
    rw [FloatLineEdit.step_index, hdecidx]
  set i : Int := ((sgn.length + I.length : Nat) : Int) - p with hidef
  set e : Int := if 0 ≤ i then i - 1 else i with hedef
  have hexp : FloatLineEdit.step_exponent i = e := rfl
  have hsval : s.value = (N0 : Rat) / 10 ^ F.length := by
    rw [FloatLineEdit.value, hval]
    rfl
  have hEe : (E : Int) = (F.length : Int) + e := hE
  have hten : (10 : Rat) ≠ 0 := by norm_num
  have hv1calc : s.value + (if add then 1 else -1) * (10 : Rat) ^ e =
      (N1 : Rat) / 10 ^ F.length := by
    rw [hsval, hN1]
    have hzp : (10 : Rat) ^ e = 10 ^ (E : Int) / 10 ^ ((F.length : Nat) : Int) := by
      rw [← zpow_sub₀ hten]
      congr 1
      omega
    rw [hzp]
    have h1 : (10 : Rat) ^ (E : Int) = 10 ^ E := zpow_natCast 10 E
    have h2 : (10 : Rat) ^ ((F.length : Nat) : Int) = 10 ^ F.length := zpow_natCast 10 F.length
    rw [h1, h2]
    by_cases h : add = true
    · rw [if_pos h, if_pos h]
      push_cast
      ring
    · rw [if_neg h, if_neg h]
      push_cast
      ring
  have hcond : (if ((N1 : Rat) / 10 ^ F.length) < 0 then 1 else 0) =
      (if N1 < 0 then 1 else 0) := by
    have hpow : (0 : Rat) < 10 ^ F.length := by positivity
    by_cases h : N1 < 0
    · rw [if_pos h, if_pos (div_neg_of_neg_of_pos (by exact_mod_cast h) hpow)]
    · rw [if_neg h]
      rw [if_neg]
      push_neg at h ⊢
      exact div_nonneg (by exact_mod_cast h) (le_of_lt hpow)
  have hmaxE : max ((F.length : Nat) : Int) (-e) = (F.length : Nat) := by
    rcases hp with ⟨h1, h2⟩ | ⟨h1, h2⟩
    · have : 0 ≤ i := by omega
      rw [hedef, if_pos this]
      omega
    · have : ¬ 0 ≤ i := by omega
      rw [hedef, if_neg this]
      omega
  have htake : s.text.take (sgn.length + I.length) = sgn ++ I := by
    rw [htext, ← List.append_assoc]
    exact List.take_left' (by simp)
  have hmvt : FloatLineEdit.match_value_to_text ((N1 : Rat) / 10 ^ F.length) s.text e =
      formatFloatPadded ((N1 : Rat) / 10 ^ F.length)
        (I.length + (if N1 < 0 then 1 else 0) + F.length + 1) F.length := by
    rw [FloatLineEdit.match_value_to_text, hdecidx]
    simp only
    rw [htake]
    have hpd0 : (s.text.length : Int) - 1 - ((sgn.length + I.length : Nat) : Int) =
        ((F.length : Nat) : Int) := by
      rw [hlen]
      push_cast
      ring
    simp only [hpd0, hmaxE, Int.toNat_natCast]
    rw [digitCount_append, hs0, digitCount_of_all hIall,
      pyRound_exact N1 F.length, hcond, if_pos (show F.length ≠ 0 by omega)]
    have harg : 0 + I.length + (if N1 < 0 then 1 else 0) + F.length + 1 =
        I.length + (if N1 < 0 then 1 else 0) + F.length + 1 := by omega
    rw [harg]
  have hacc : doubleAcceptable s.bottom s.top s.decimals
      (formatFloatPadded ((N1 : Rat) / 10 ^ F.length)
        (I.length + (if N1 < 0 then 1 else 0) + F.length + 1) F.length) = true := by
    rw [doubleAcceptable, pyParseFloat_format_exact]
    rw [decimalsUsed_formatFloatPadded _ _ _ hflen1]
    simp [hlo, hhi, hdec]
  rw [FloatLineEdit.step]
  simp only [htne', Bool.false_eq_true, if_false, hpos]
  rw [if_neg hguard, hstepidx, hexp, hv1calc, hmvt, if_pos hacc]
  rfl

theorem decimalsUsed_formatFloatPadded_zero (q : Rat) (w : Nat) :
    decimalsUsed (formatFloatPadded q w 0) = 0 := by
  rw [formatFloatPadded_struct0 q w (pyRoundInt (q * 10 ^ (0 : Nat))) rfl]
  set n := pyRoundInt (q * 10 ^ (0 : Nat)) with hn
  have hnodot : ∀ c ∈ (if n < 0 then ['-'] else []) ++
      (zeros (w - ((if n < 0 then 1 else 0) + (natDigits n.natAbs).length)) ++
        natDigits n.natAbs), c ≠ '.' := by
    intro c hc
    rw [List.mem_append] at hc
    rcases hc with hc | hc
    · by_cases h : n < 0
      · rw [if_pos h] at hc
        rw [List.mem_singleton] at hc
        subst hc
        decide
      · rw [if_neg h] at hc
        exact absurd hc (List.not_mem_nil c)
    · rw [List.mem_append] at hc
      rcases hc with hc | hc
      · rw [List.eq_of_mem_replicate hc]
        decide
      · have hnd := natDigits_all n.natAbs
        rw [List.all_eq_true] at hnd
        exact pyIsDigit_ne_dot (hnd c hc)
  rw [decimalsUsed, decIndex_no_dot hnodot]

theorem float_step_canonical_nodot
    (s : FloatLineEdit) (add : Bool) (sgn I : List Char) (p : Nat) (N0 N1 : Int)
    (hsgn : sgn = [] ∨ sgn = ['-'] ∨ sgn = ['+'])
    (hI : I ≠ []) (hIall : I.all pyIsDigit = true)
    (htext : s.text = sgn ++ I)
    (hpos : (match s.selection with | some sel => sel.1 | none => s.cursor) = p)
    (hp1 : sgn.length ≤ p) (hp2 : p < sgn.length + I.length)
    (hval : pyParseFloat s.text = some ((N0 : Rat)))
    (hN1 : N1 = N0 + (if add then 1 else -1) * 10 ^ (sgn.length + I.length - p - 1))
    (hlo : s.bottom ≤ (N1 : Rat)) (hhi : (N1 : Rat) ≤ s.top) :
    s.step add =
      ({ s with
          text := formatFloatPadded ((N1 : Rat)) (I.length + (if N1 < 0 then 1 else 0)) 0,
          storedValue := (N1 : Rat),
          selection := some ((FloatLineEdit.step_index_to_position
            (((sgn.length + I.length : Nat) : Int) - p)
            (formatFloatPadded ((N1 : Rat))
              (I.length + (if N1 < 0 then 1 else 0)) 0)).toNat, 1),
          cursor := (FloatLineEdit.step_index_to_position
            (((sgn.length + I.length : Nat) : Int) - p)
            (formatFloatPadded ((N1 : Rat))
              (I.length + (if N1 < 0 then 1 else 0)) 0)).toNat + 1 },
        true) := by
  have hs0 : digitCount sgn = 0 := by
    rcases hsgn with h | h | h <;> subst h <;> decide
  have hlen : s.text.length = sgn.length + I.length := by
    rw [htext]
    simp
  have htne : s.text ≠ [] := by
    rw [htext]
    intro hcontra
    exact hI (List.append_eq_nil.mp hcontra).2
  have htne' : s.text.isEmpty = false := by
    simp [List.isEmpty_iff, htne]
  have hdig : pyIsDigit (s.text.getD p ' ') = true := by
    have hshape : s.text = sgn ++ (I ++ []) := by
      rw [htext]
      simp
    rw [hshape]
    exact getD_all_digits_segment hIall hp1 (by omega)
  have hguard : ¬ (p < s.text.length ∧ pyIsDigit (s.text.getD p ' ') = false) := by
    intro hcontra
    rw [hdig] at hcontra
    exact absurd hcontra.2 (by simp)
  have hnodot : ∀ c ∈ s.text, c ≠ '.' := by
    intro c hc
    rw [htext, List.mem_append] at hc
    rcases hc with hc | hc
    · rcases hsgn with h | h | h <;> subst h
      · exact absurd hc (List.not_mem_nil c)
      · rw [List.mem_singleton] at hc
        subst hc
        decide
      · rw [List.mem_singleton] at hc
        subst hc
        decide
    · have hnd := hIall
      rw [List.all_eq_true] at hnd
      exact pyIsDigit_ne_dot (hnd c hc)
  have hdecidx : decIndex s.text = none := decIndex_no_dot hnodot
  have hstepidx : FloatLineEdit.step_index s.text p =
      ((sgn.length + I.length : Nat) : Int) - p := by
    rw [FloatLineEdit.step_index, hdecidx, hlen]
  set i : Int := ((sgn.length + I.length : Nat) : Int) - p with hidef
  have hinn : 0 ≤ i := by
    rw [hidef]
    omega
  have hexp : FloatLineEdit.step_exponent i = i - 1 := by
    rw [FloatLineEdit.step_exponent, if_pos hinn]
  have hsval : s.value = (N0 : Rat) := by
    rw [FloatLineEdit.value, hval]
    rfl
  have hzp : (10 : Rat) ^ (i - 1) = 10 ^ (sgn.length + I.length - p - 1) := by
    have hi1 : i - 1 = ((sgn.length + I.length - p - 1 : Nat) : Int) := by
      rw [hidef]
      omega
    rw [hi1, zpow_natCast]
  have hv1calc : s.value + (if add then 1 else -1) * (10 : Rat) ^ (i - 1) = (N1 : Rat) := by
    rw [hsval, hzp, hN1]
    by_cases h : add = true
    · rw [if_pos h, if_pos h]
      push_cast
      ring
    · rw [if_neg h, if_neg h]
      push_cast
      ring
  have hcond : (if ((N1 : Rat)) < 0 then 1 else 0) = (if N1 < 0 then 1 else 0) := by
    by_cases h : N1 < 0
    · rw [if_pos h, if_pos (by exact_mod_cast h)]
    · rw [if_neg h, if_neg (by exact_mod_cast h)]
  have hmvt : FloatLineEdit.match_value_to_text ((N1 : Rat)) s.text (i - 1) =
      formatFloatPadded ((N1 : Rat)) (I.length + (if N1 < 0 then 1 else 0)) 0 := by
    rw [FloatLineEdit.match_value_to_text, hdecidx]
    simp only
    have hmax : max (0 : Int) (-(i - 1)) = 0 := by omega
    simp only [hmax, Int.toNat_zero]
    rw [htext, digitCount_append, hs0, digitCount_of_all hIall,
      pyRound_zero_intCast, hcond]
    simp only [ne_eq, not_true_eq_false, if_neg, if_false]
    congr 1
    omega
  have hacc : doubleAcceptable s.bottom s.top s.decimals
      (formatFloatPadded ((N1 : Rat)) (I.length + (if N1 < 0 then 1 else 0)) 0) = true := by
    rw [doubleAcceptable, pyParseFloat_format_zero]
    rw [decimalsUsed_formatFloatPadded_zero]
    simp [hlo, hhi]
  rw [FloatLineEdit.step]
  simp only [htne', Bool.false_eq_true, if_false, hpos]
  rw [if_neg hguard, hstepidx, hexp, hv1calc, hmvt, if_pos hacc]
  rfl

theorem no_dot_sgn_digits {sgn I : List Char}
    (hsgn : sgn = [] ∨ sgn = ['-'] ∨ sgn = ['+']) (hIall : I.all pyIsDigit = true) :
    ∀ c ∈ sgn ++ I, c ≠ '.' := by
  intro c hc
  rw [List.mem_append] at hc
  rcases hc with hc | hc
  · rcases hsgn with h | h | h <;> subst h
    · exact absurd hc (List.not_mem_nil c)
    · rw [List.mem_singleton] at hc
      subst hc
      decide
    · rw [List.mem_singleton] at hc
      subst hc
      decide
  · rw [List.all_eq_true] at hIall
    exact pyIsDigit_ne_dot (hIall c hc)

theorem zeros_no_dot (k : Nat) : ∀ c ∈ zeros k, c ≠ '.' := by
  intro c hc
  rw [List.eq_of_mem_replicate hc]
  decide

theorem formatFloat_ipart_all (Z a : Nat) :
    (zeros Z ++ natDigits a).all pyIsDigit = true := by
  rw [List.all_append, zeros_all, natDigits_all]
  rfl

theorem formatFloat_ipart_ne_nil (Z a : Nat) : zeros Z ++ natDigits a ≠ [] :=
  fun hc => natDigits_ne_nil a (List.append_eq_nil.mp hc).2

theorem fmt_dot_struct (N : Int) (W f : Nat) (hf : 1 ≤ f) :
    formatFloatPadded ((N : Rat) / 10 ^ f) W f =
      fmtSgn N ++ (fmtIpart N W f ++ '.' :: fmtFpart N f) := by
  have h := formatFloatPadded_struct ((N : Rat) / 10 ^ f) W f hf N (pyRoundInt_div_pow N f)
  rw [h]
  rw [fmtSgn, fmtIpart, fmtFpart]

theorem fmtFpart_length {N : Int} {f : Nat} (hf : 1 ≤ f) : (fmtFpart N f).length = f := by
  rw [fmtFpart]
  exact zeroFill_length (Nat.mod_lt _ (Nat.pos_pow_of_pos f (by norm_num))) hf

theorem fmtSgn_length (N : Int) : (fmtSgn N).length = if N < 0 then 1 else 0 := by
  rw [fmtSgn]
  by_cases h : N < 0 <;> simp [h]

theorem fmtSgn_cases (N : Int) : fmtSgn N = [] ∨ fmtSgn N = ['-'] ∨ fmtSgn N = ['+'] := by
  rw [fmtSgn]
  by_cases h : N < 0 <;> simp [h]

theorem fmtIpart_all (N : Int) (W f : Nat) : (fmtIpart N W f).all pyIsDigit = true := by
  rw [fmtIpart]
  exact formatFloat_ipart_all _ _

theorem fmtIpart_ne_nil (N : Int) (W f : Nat) : fmtIpart N W f ≠ [] := by
  rw [fmtIpart]
  exact formatFloat_ipart_ne_nil _ _

theorem fmtFpart_all (N : Int) (f : Nat) : (fmtFpart N f).all pyIsDigit = true := by
  rw [fmtFpart, zeroFill]
  exact formatFloat_ipart_all _ _

theorem fmtFpart_ne_nil {N : Int} {f : Nat} (hf : 1 ≤ f) : fmtFpart N f ≠ [] := by
  intro hc
  have := fmtFpart_length (N := N) hf
  rw [hc] at this
  simp at this
  omega

theorem fmtIpart_length_ge (N : Int) (W f : Nat) :
    W - (if N < 0 then 1 else 0) - 1 - f ≤ (fmtIpart N W f).length := by
  rw [fmtIpart]
  simp only [List.length_append, zeros, List.length_replicate]
  omega

theorem fmt_dot_decIndex (N : Int) (W f : Nat) (hf : 1 ≤ f) :
    decIndex (formatFloatPadded ((N : Rat) / 10 ^ f) W f) =
      some ((fmtSgn N).length + (fmtIpart N W f).length) := by
  rw [fmt_dot_struct N W f hf, ← List.append_assoc,
    decIndex_append_dot _ (no_dot_sgn_digits (fmtSgn_cases N) (fmtIpart_all N W f))]
  simp

theorem float_step_up_down_dot
    (bottom top sv : Rat) (dec : Nat) (sgn I F : List Char) (p0 : Nat) (N0 N1 : Int)
    (E : Nat) (s0 : FloatLineEdit)
    (hs0 : s0 = ⟨sgn ++ (I ++ '.' :: F), sv, p0, none, bottom, top, dec, false⟩)
    (hsgn : sgn = [] ∨ sgn = ['-'] ∨ sgn = ['+'])
    (hI : I ≠ []) (hIall : I.all pyIsDigit = true)
    (hF : F ≠ []) (hFall : F.all pyIsDigit = true)
    (hp : (sgn.length ≤ p0 ∧ p0 < sgn.length + I.length) ∨
      (sgn.length + I.length + 1 ≤ p0 ∧ p0 < sgn.length + I.length + 1 + F.length))
    (hval : pyParseFloat (sgn ++ (I ++ '.' :: F)) = some ((N0 : Rat) / 10 ^ F.length))
    (hE : (E : Int) = (F.length : Int) +
      (if 0 ≤ ((sgn.length + I.length : Nat) : Int) - p0
        then ((sgn.length + I.length : Nat) : Int) - p0 - 1
        else ((sgn.length + I.length : Nat) : Int) - p0))
    (hN1 : N1 = N0 + 10 ^ E)
    (hdec : F.length ≤ dec)
    (hlo : bottom ≤ (N0 : Rat) / 10 ^ F.length) (hhi : (N0 : Rat) / 10 ^ F.length ≤ top)
    (hlo1 : bottom ≤ (N1 : Rat) / 10 ^ F.length) (hhi1 : (N1 : Rat) / 10 ^ F.length ≤ top) :
    (s0.step true).2 = true ∧
    ((s0.step true).1.step false).2 = true ∧
    ((s0.step true).1.step false).1.storedValue = (N0 : Rat) / 10 ^ F.length ∧
    ((s0.step true).1.step false).1.value = (N0 : Rat) / 10 ^ F.length ∧
    ((s0.step true).1.selection).isSome = true ∧
    (((s0.step true).1.step false).1.selection).isSome = true ∧
    FloatLineEdit.step_index (s0.step true).1.text
      (((s0.step true).1.selection.getD (0, 1)).1) =
      ((sgn.length + I.length : Nat) : Int) - p0 ∧
    FloatLineEdit.step_index ((s0.step true).1.step false).1.text
      ((((s0.step true).1.step false).1.selection.getD (0, 1)).1) =
      ((sgn.length + I.length : Nat) : Int) - p0 := by
  subst hs0
  have hflen1 : 1 ≤ F.length := List.length_pos.mpr hF
  set i : Int := ((sgn.length + I.length : Nat) : Int) - p0 with hidef
  have hi0 : i ≠ 0 := by
    rcases hp with ⟨h1, h2⟩ | ⟨h1, h2⟩ <;> omega
  have h1 := float_step_canonical_dot
    ⟨sgn ++ (I ++ '.' :: F), sv, p0, none, bottom, top, dec, false⟩
    true sgn I F p0 N0 N1 E hsgn hI hIall hF hFall rfl rfl hp hval hE
    (by rw [hN1]; norm_num) hdec hlo1 hhi1
  set W1 := I.length + (if N1 < 0 then 1 else 0) + F.length + 1 with hW1def
  set t1 := formatFloatPadded ((N1 : Rat) / 10 ^ F.length) W1 F.length with ht1def
  have st1 := fmt_dot_struct N1 W1 F.length hflen1
  have dec1 := fmt_dot_decIndex N1 W1 F.length hflen1
  have hsgn1len := fmtSgn_length N1
  have hF1len := fmtFpart_length (N := N1) hflen1
  have hI1ge : I.length ≤ (fmtIpart N1 W1 F.length).length := by
    have := fmtIpart_length_ge N1 W1 F.length
    omega
  have hpos1 : FloatLineEdit.step_index_to_position i t1 =
      (((fmtSgn N1).length + (fmtIpart N1 W1 F.length).length : Nat) : Int) - i := by
    rw [FloatLineEdit.step_index_to_position, dec1, if_neg hi0]
  have hpos1nonneg : 0 ≤ (((fmtSgn N1).length + (fmtIpart N1 W1 F.length).length : Nat) :
      Int) - i := by
    rcases hp with ⟨h1', h2'⟩ | ⟨h1', h2'⟩ <;> omega
  set p1 := (FloatLineEdit.step_index_to_position i t1).toNat with hp1def
  have hp1val : (p1 : Int) =
      (((fmtSgn N1).length + (fmtIpart N1 W1 F.length).length : Nat) : Int) - i := by
    rw [hp1def, hpos1]
    omega
  set s1 : FloatLineEdit :=
    { text := t1,
      storedValue := (N1 : Rat) / 10 ^ F.length,
      cursor := p1 + 1,
      selection := some (p1, 1),
      bottom := bottom, top := top, decimals := dec, blocked := false } with hs1def
  have hstep1 : (FloatLineEdit.step
      ⟨sgn ++ (I ++ '.' :: F), sv, p0, none, bottom, top, dec, false⟩ true) = (s1, true) :=
    h1
  have hi2 : (((fmtSgn N1).length + (fmtIpart N1 W1 F.length).length : Nat) : Int) - p1
      = i := by omega
  have h2 := float_step_canonical_dot s1 false (fmtSgn N1) (fmtIpart N1 W1 F.length)
    (fmtFpart N1 F.length) p1 N1 N0 E (fmtSgn_cases N1) (fmtIpart_ne_nil N1 W1 F.length)
    (fmtIpart_all N1 W1 F.length) (fmtFpart_ne_nil hflen1) (fmtFpart_all N1 F.length)
    st1 rfl
    (by
      rcases hp with ⟨h1', h2'⟩ | ⟨h1', h2'⟩
      · left
        constructor <;> omega
      · right
        rw [hF1len]
        constructor <;> omega)
    (by
      show pyParseFloat t1 = _
      rw [hF1len, ht1def]
      exact pyParseFloat_format_exact N1 W1 F.length)
    (by rw [hF1len, hi2]; exact hE)
    (by rw [hN1]; norm_num)
    (by rw [hF1len]; exact hdec)
    (by rw [hF1len]; exact hlo)
    (by rw [hF1len]; exact hhi)
  rw [hF1len, hi2] at h2
  set W2 := (fmtIpart N1 W1 F.length).length + (if N0 < 0 then 1 else 0) + F.length + 1
    with hW2def
  set t2 := formatFloatPadded ((N0 : Rat) / 10 ^ F.length) W2 F.length with ht2def
  have dec2 := fmt_dot_decIndex N0 W2 F.length hflen1
  have hI2ge : (fmtIpart N1 W1 F.length).length ≤ (fmtIpart N0 W2 F.length).length := by
    have := fmtIpart_length_ge N0 W2 F.length
    omega
  have hpos2nonneg : 0 ≤ (((fmtSgn N0).length + (fmtIpart N0 W2 F.length).length : Nat) :
      Int) - i := by
    rcases hp with ⟨h1', h2'⟩ | ⟨h1', h2'⟩ <;> omega
  have hpos2 : FloatLineEdit.step_index_to_position i t2 =
      (((fmtSgn N0).length + (fmtIpart N0 W2 F.length).length : Nat) : Int) - i := by
    rw [FloatLineEdit.step_index_to_position, dec2, if_neg hi0]
  set p2 := (FloatLineEdit.step_index_to_position i t2).toNat with hp2def
  have hp2val : (p2 : Int) =
      (((fmtSgn N0).length + (fmtIpart N0 W2 F.length).length : Nat) : Int) - i := by
    rw [hp2def, hpos2]
    omega
  rw [hstep1]
  rw [show (s1, true).1 = s1 from rfl, show (s1, true).2 = true from rfl, h2]
  refine ⟨rfl, by trivial, by trivial, ?_, by trivial, by trivial, ?_, ?_⟩
  · show (pyParseFloat t2).getD 0 = (N0 : Rat) / 10 ^ F.length
    rw [ht2def, pyParseFloat_format_exact]
    rfl
  · show FloatLineEdit.step_index t1 ((some (p1, 1)).getD (0, 1)).1 = i
    rw [Option.getD_some]
    show FloatLineEdit.step_index t1 p1 = i
    rw [FloatLineEdit.step_index, dec1]
    show (((fmtSgn N1).length + (fmtIpart N1 W1 F.length).length : Nat) : Int) - p1 = i
    omega
  · show FloatLineEdit.step_index t2 ((some (p2, 1)).getD (0, 1)).1 = i
    rw [Option.getD_some]
    show FloatLineEdit.step_index t2 p2 = i
    rw [FloatLineEdit.step_index, dec2]
    show (((fmtSgn N0).length + (fmtIpart N0 W2 F.length).length : Nat) : Int) - p2 = i
    omega

theorem float_step_up_down_nodot
    (bottom top sv : Rat) (dec : Nat) (sgn I : List Char) (p0 : Nat) (N0 N1 : Int)
    (s0 : FloatLineEdit)
    (hs0 : s0 = ⟨sgn ++ I, sv, p0, none, bottom, top, dec, false⟩)
    (hsgn : sgn = [] ∨ sgn = ['-'] ∨ sgn = ['+'])
    (hI : I ≠ []) (hIall : I.all pyIsDigit = true)
    (hp1 : sgn.length ≤ p0) (hp2 : p0 < sgn.length + I.length)
    (hval : pyParseFloat (sgn ++ I) = some ((N0 : Rat)))
    (hN1 : N1 = N0 + 10 ^ (sgn.length + I.length - p0 - 1))
    (hlo : bottom ≤ (N0 : Rat)) (hhi : (N0 : Rat) ≤ top)
    (hlo1 : bottom ≤ (N1 : Rat)) (hhi1 : (N1 : Rat) ≤ top) :
    (s0.step true).2 = true ∧
    ((s0.step true).1.step false).2 = true ∧
    ((s0.step true).1.step false).1.storedValue = (N0 : Rat) ∧
    ((s0.step true).1.step false).1.value = (N0 : Rat) ∧
    ((s0.step true).1.selection).isSome = true ∧
    (((s0.step true).1.step false).1.selection).isSome = true ∧
    FloatLineEdit.step_index (s0.step true).1.text
      (((s0.step true).1.selection.getD (0, 1)).1) =
      ((sgn.length + I.length : Nat) : Int) - p0 ∧
    FloatLineEdit.step_index ((s0.step true).1.step false).1.text
      ((((s0.step true).1.step false).1.selection.getD (0, 1)).1) =
      ((sgn.length + I.length : Nat) : Int) - p0 := by
  subst hs0
  set i : Nat := sgn.length + I.length - p0 with hidef
  have hige : 1 ≤ i := by omega
  have hile : i ≤ I.length := by omega
  have h1 := float_step_canonical_nodot
    ⟨sgn ++ I, sv, p0, none, bottom, top, dec, false⟩
    true sgn I p0 N0 N1 hsgn hI hIall rfl rfl hp1 hp2 hval
    (by rw [hN1]; norm_num) hlo1 hhi1
  set W1 := I.length + (if N1 < 0 then 1 else 0) with hW1def
  set t1 := formatFloatPadded ((N1 : Rat)) W1 0 with ht1def
  have hro1 : pyRoundInt ((N1 : Rat) * 10 ^ (0 : Nat)) = N1 := by
    rw [pow_zero, mul_one, pyRoundInt_intCast]
  have st1 := formatFloatPadded_struct0 ((N1 : Rat)) W1 N1 hro1
  set sgn1 : List Char := if N1 < 0 then ['-'] else [] with hsgn1def
  set rest1 := zeros (W1 - ((if N1 < 0 then 1 else 0) + (natDigits N1.natAbs).length)) ++
    natDigits N1.natAbs with hrest1def
  have hsgn1cases : sgn1 = [] ∨ sgn1 = ['-'] ∨ sgn1 = ['+'] := by
    by_cases h : N1 < 0 <;> simp [hsgn1def, h]
  have hsgn1len : sgn1.length = if N1 < 0 then 1 else 0 := by
    by_cases h : N1 < 0 <;> simp [hsgn1def, h]
  have hall1 : rest1.all pyIsDigit = true := formatFloat_ipart_all _ _
  have hne1 : rest1 ≠ [] := formatFloat_ipart_ne_nil _ _
  have hrest1ge : I.length ≤ rest1.length := by
    rw [hrest1def]
    simp only [List.length_append, zeros, List.length_replicate]
    omega
  have st1' : t1 = sgn1 ++ rest1 := st1
  have hnodot1 : ∀ c ∈ t1, c ≠ '.' := by
    rw [st1']
    exact no_dot_sgn_digits hsgn1cases hall1
  have hdec1 : decIndex t1 = none := decIndex_no_dot hnodot1
  have hlen1 : t1.length = sgn1.length + rest1.length := by
    rw [st1']
    simp
  have hpos1 : FloatLineEdit.step_index_to_position
      (((sgn.length + I.length : Nat) : Int) - p0) t1 =
      (t1.length : Int) - (((sgn.length + I.length : Nat) : Int) - p0) := by
    rw [FloatLineEdit.step_index_to_position, hdec1]
  set p1 := (FloatLineEdit.step_index_to_position
      (((sgn.length + I.length : Nat) : Int) - p0) t1).toNat with hp1def
  have hp1val : p1 = t1.length - i := by
    rw [hp1def, hpos1]
    omega
  set s1 : FloatLineEdit :=
    { text := t1,
      storedValue := (N1 : Rat),
      cursor := p1 + 1,
      selection := some (p1, 1),
      bottom := bottom, top := top, decimals := dec, blocked := false } with hs1def
  have hstep1 : FloatLineEdit.step
      ⟨sgn ++ I, sv, p0, none, bottom, top, dec, false⟩ true = (s1, true) := h1
  have hexp2 : sgn1.length + rest1.length - p1 - 1 = i - 1 := by omega
  have h2 := float_step_canonical_nodot s1 false sgn1 rest1 p1 N1 N0
    hsgn1cases hne1 hall1 st1' rfl
    (by omega) (by omega)
    (by
      show pyParseFloat t1 = _
      rw [ht1def]
      exact pyParseFloat_format_zero N1 W1)
    (by
      rw [hexp2, hN1]
      norm_num)
    hlo hhi
  set W2 := rest1.length + (if N0 < 0 then 1 else 0) with hW2def
  set t2 := formatFloatPadded ((N0 : Rat)) W2 0 with ht2def
  have hro2 : pyRoundInt ((N0 : Rat) * 10 ^ (0 : Nat)) = N0 := by
    rw [pow_zero, mul_one, pyRoundInt_intCast]
  have st2 := formatFloatPadded_struct0 ((N0 : Rat)) W2 N0 hro2
  set sgn2 : List Char := if N0 < 0 then ['-'] else [] with hsgn2def
  set rest2 := zeros (W2 - ((if N0 < 0 then 1 else 0) + (natDigits N0.natAbs).length)) ++
    natDigits N0.natAbs with hrest2def
  have st2' : t2 = sgn2 ++ rest2 := st2
  have hsgn2cases : sgn2 = [] ∨ sgn2 = ['-'] ∨ sgn2 = ['+'] := by
    by_cases h : N0 < 0 <;> simp [hsgn2def, h]
  have hall2 : rest2.all pyIsDigit = true := formatFloat_ipart_all _ _
  have hrest2ge : rest1.length ≤ rest2.length := by
    rw [hrest2def]
    simp only [List.length_append, zeros, List.length_replicate]
    omega
  have hnodot2 : ∀ c ∈ t2, c ≠ '.' := by
    rw [st2']
    exact no_dot_sgn_digits hsgn2cases hall2
  have hdec2 : decIndex t2 = none := decIndex_no_dot hnodot2
  have hlen2 : t2.length = sgn2.length + rest2.length := by
    rw [st2']
    simp
  have hpos2 : FloatLineEdit.step_index_to_position
      (((sgn1.length + rest1.length : Nat) : Int) - p1) t2 =
      (t2.length : Int) - (((sgn1.length + rest1.length : Nat) : Int) - p1) := by
    rw [FloatLineEdit.step_index_to_position, hdec2]
  set p2 := (FloatLineEdit.step_index_to_position
      (((sgn1.length + rest1.length : Nat) : Int) - p1) t2).toNat with hp2def
  have hp2val : p2 = t2.length - i := by
    rw [hp2def, hpos2]
    omega
  rw [hstep1]
  rw [show (s1, true).1 = s1 from rfl, show (s1, true).2 = true from rfl, h2]
  refine ⟨rfl, by trivial, by trivial, ?_, by trivial, by trivial, ?_, ?_⟩
  · show (pyParseFloat t2).getD 0 = (N0 : Rat)
    rw [ht2def, pyParseFloat_format_zero]
    rfl
  · show FloatLineEdit.step_index t1 ((some (p1, 1)).getD (0, 1)).1 =
      ((sgn.length + I.length : Nat) : Int) - p0
    rw [Option.getD_some]
    show FloatLineEdit.step_index t1 p1 = ((sgn.length + I.length : Nat) : Int) - p0
    rw [FloatLineEdit.step_index, hdec1]
    show (t1.length : Int) - p1 = ((sgn.length + I.length : Nat) : Int) - p0
    omega
  · show FloatLineEdit.step_index t2 ((some (p2, 1)).getD (0, 1)).1 =
      ((sgn.length + I.length : Nat) : Int) - p0
    rw [Option.getD_some]
    show FloatLineEdit.step_index t2 p2 = ((sgn.length + I.length : Nat) : Int) - p0
    rw [FloatLineEdit.step_index, hdec2]
    show (t2.length : Int) - p2 = ((sgn.length + I.length : Nat) : Int) - p0
    omega

/-- C2: for every numeric line edit (integer editor, and float editor with or
without a decimal point in its text) holding a valid interior value, with
both the original and the stepped up value inside [minimum, maximum], and
for every digit caret position, step(add=True) followed by step(add=False)
at the resulting selection succeeds twice, returns the edit to the original
numeric value (displayed and cached), and leaves the selection over the
same caret relative digit position, measured by the editors own step_index
(distance to the end for the int editor, signed distance to the decimal
point for the float editor). -/
theorem claim_C2_step_up_down_round_trip :
    (∀ (bottom top v0 sv : Int) (sgn ds : List Char) (p0 : Nat),
      (sgn = [] ∨ sgn = ['-'] ∨ sgn = ['+']) → ds ≠ [] → ds.all pyIsDigit = true →
      sgn.length ≤ p0 → p0 < sgn.length + ds.length →
      pyParseInt (sgn ++ ds) = some v0 →
      bottom ≤ v0 → v0 ≤ top →
      bottom ≤ v0 + 10 ^ (sgn.length + ds.length - p0 - 1) →
      v0 + 10 ^ (sgn.length + ds.length - p0 - 1) ≤ top →
      ((⟨sgn ++ ds, sv, p0, none, bottom, top, false⟩ : IntLineEdit).step true).2 = true ∧
      ((((⟨sgn ++ ds, sv, p0, none, bottom, top, false⟩ : IntLineEdit).step true).1.step
          false)).2 = true ∧
      ((((⟨sgn ++ ds, sv, p0, none, bottom, top, false⟩ : IntLineEdit).step true).1.step
          false)).1.value = v0 ∧
      ((((⟨sgn ++ ds, sv, p0, none, bottom, top, false⟩ : IntLineEdit).step true).1.step
          false)).1.storedValue = v0 ∧
      (((⟨sgn ++ ds, sv, p0, none, bottom, top, false⟩ : IntLineEdit).step
          true).1.selection =
        some ((((⟨sgn ++ ds, sv, p0, none, bottom, top, false⟩ : IntLineEdit).step
          true).1.text.length - (sgn.length + ds.length - p0), 1))) ∧
      ((((⟨sgn ++ ds, sv, p0, none, bottom, top, false⟩ : IntLineEdit).step true).1.step
          false)).1.selection =
        some (((((⟨sgn ++ ds, sv, p0, none, bottom, top, false⟩ : IntLineEdit).step
          true).1.step false)).1.text.length - (sgn.length + ds.length - p0), 1) ∧
      (sgn.length + ds.length - p0) ≤
        (((⟨sgn ++ ds, sv, p0, none, bottom, top, false⟩ : IntLineEdit).step
          true).1.text.length) ∧
      (sgn.length + ds.length - p0) ≤
        ((((⟨sgn ++ ds, sv, p0, none, bottom, top, false⟩ : IntLineEdit).step true).1.step
          false)).1.text.length) ∧
    (∀ (bottom top sv : Rat) (dec : Nat) (sgn I F : List Char) (p0 : Nat) (N0 N1 : Int)
      (E : Nat) (s0 : FloatLineEdit),
      s0 = ⟨sgn ++ (I ++ '.' :: F), sv, p0, none, bottom, top, dec, false⟩ →
      (sgn = [] ∨ sgn = ['-'] ∨ sgn = ['+']) →
      I ≠ [] → I.all pyIsDigit = true →
      F ≠ [] → F.all pyIsDigit = true →
      ((sgn.length ≤ p0 ∧ p0 < sgn.length + I.length) ∨
        (sgn.length + I.length + 1 ≤ p0 ∧ p0 < sgn.length + I.length + 1 + F.length)) →
      pyParseFloat (sgn ++ (I ++ '.' :: F)) = some ((N0 : Rat) / 10 ^ F.length) →
      ((E : Int) = (F.length : Int) +
        (if 0 ≤ ((sgn.length + I.length : Nat) : Int) - p0
          then ((sgn.length + I.length : Nat) : Int) - p0 - 1
          else ((sgn.length + I.length : Nat) : Int) - p0)) →
      N1 = N0 + 10 ^ E →
      F.length ≤ dec →
      bottom ≤ (N0 : Rat) / 10 ^ F.length → (N0 : Rat) / 10 ^ F.length ≤ top →
      bottom ≤ (N1 : Rat) / 10 ^ F.length → (N1 : Rat) / 10 ^ F.length ≤ top →
      (s0.step true).2 = true ∧
      ((s0.step true).1.step false).2 = true ∧
      ((s0.step true).1.step false).1.storedValue = (N0 : Rat) / 10 ^ F.length ∧
      ((s0.step true).1.step false).1.value = (N0 : Rat) / 10 ^ F.length ∧
      ((s0.step true).1.selection).isSome = true ∧
      (((s0.step true).1.step false).1.selection).isSome = true ∧
      FloatLineEdit.step_index (s0.step true).1.text
        (((s0.step true).1.selection.getD (0, 1)).1) =
        ((sgn.length + I.length : Nat) : Int) - p0 ∧
      FloatLineEdit.step_index ((s0.step true).1.step false).1.text
        ((((s0.step true).1.step false).1.selection.getD (0, 1)).1) =
        ((sgn.length + I.length : Nat) : Int) - p0) ∧
    (∀ (bottom top sv : Rat) (dec : Nat) (sgn I : List Char) (p0 : Nat) (N0 N1 : Int)
      (s0 : FloatLineEdit),
      s0 = ⟨sgn ++ I, sv, p0, none, bottom, top, dec, false⟩ →
      (sgn = [] ∨ sgn = ['-'] ∨ sgn = ['+']) →
      I ≠ [] → I.all pyIsDigit = true →
      sgn.length ≤ p0 → p0 < sgn.length + I.length →
      pyParseFloat (sgn ++ I) = some ((N0 : Rat)) →
      N1 = N0 + 10 ^ (sgn.length + I.length - p0 - 1) →
      bottom ≤ (N0 : Rat) → (N0 : Rat) ≤ top →
      bottom ≤ (N1 : Rat) → (N1 : Rat) ≤ top →
      (s0.step true).2 = true ∧
      ((s0.step true).1.step false).2 = true ∧
      ((s0.step true).1.step false).1.storedValue = (N0 : Rat) ∧
      ((s0.step true).1.step false).1.value = (N0 : Rat) ∧
      ((s0.step true).1.selection).isSome = true ∧
      (((s0.step true).1.step false).1.selection).isSome = true ∧
      FloatLineEdit.step_index (s0.step true).1.text
        (((s0.step true).1.selection.getD (0, 1)).1) =
        ((sgn.length + I.length : Nat) : Int) - p0 ∧
      FloatLineEdit.step_index ((s0.step true).1.step false).1.text
        ((((s0.step true).1.step false).1.selection.getD (0, 1)).1) =
        ((sgn.length + I.length : Nat) : Int) - p0) := by
  refine ⟨?_, ?_, ?_⟩
  · intro bottom top v0 sv sgn ds p0 hsgn hds hall hp1 hp2 hv0 hlo hhi hlo1 hhi1
    exact int_step_up_down bottom top v0 sv sgn ds p0 hsgn hds hall hp1 hp2 hv0
      hlo hhi hlo1 hhi1
  · intro bottom top sv dec sgn I F p0 N0 N1 E s0 hs0 hsgn hI hIall hF hFall hp hval hE
      hN1 hdec hlo hhi hlo1 hhi1
    exact float_step_up_down_dot bottom top sv dec sgn I F p0 N0 N1 E s0 hs0 hsgn hI
      hIall hF hFall hp hval hE hN1 hdec hlo hhi hlo1 hhi1
  · intro bottom top sv dec sgn I p0 N0 N1 s0 hs0 hsgn hI hIall hp1 hp2 hval hN1
      hlo hhi hlo1 hhi1
    exact float_step_up_down_nodot bottom top sv dec sgn I p0 N0 N1 s0 hs0 hsgn hI hIall
      hp1 hp2 hval hN1 hlo hhi hlo1 hhi1

theorem claim_C2_step_up_down_round_trip_witness :
    ((⟨['2','5'], 0, 0, none, -100, 100, false⟩ : IntLineEdit).step true).2 = true ∧
    (((⟨['2','5'], 0, 0, none, -100, 100, false⟩ : IntLineEdit).step true).1.step
      false).2 = true ∧
    (((⟨['2','5'], 0, 0, none, -100, 100, false⟩ : IntLineEdit).step true).1.step
      false).1.value = 25 ∧
    ((⟨['2','.','5'], 0, 0, none, -100, 100, 2, false⟩ : FloatLineEdit).step true).2 =
      true ∧
    (((⟨['2','.','5'], 0, 0, none, -100, 100, 2, false⟩ : FloatLineEdit).step
      true).1.step false).2 = true ∧
    (((⟨['2','.','5'], 0, 0, none, -100, 100, 2, false⟩ : FloatLineEdit).step
      true).1.step false).1.value = ((25 : Int) : Rat) / 10 ^ 1 ∧
    ((⟨['5'], 0, 0, none, -100, 100, 2, false⟩ : FloatLineEdit).step true).2 = true ∧
    (((⟨['5'], 0, 0, none, -100, 100, 2, false⟩ : FloatLineEdit).step true).1.step
      false).2 = true ∧
    (((⟨['5'], 0, 0, none, -100, 100, 2, false⟩ : FloatLineEdit).step true).1.step
      false).1.value = ((5 : Int) : Rat) := by
  have hpf1 : pyParseFloat ([] ++ (['2'] ++ '.' :: ['5'])) =
      some (((25 : Int) : Rat) / 10 ^ (['5'] : List Char).length) := by
    show pyParseFloat ['2', '.', '5'] = _
    rw [pyParseFloat_cons_digit _ (by decide),
      show (['2', '.', '5'] : List Char) = ['2'] ++ '.' :: ['5'] from rfl,
      pyParseFloatCore_dot (by decide) (by decide) (by decide)]
    norm_num [digitsVal, charVal, show ('2'.toNat - 48 : Nat) = 2 from rfl,
      show ('5'.toNat - 48 : Nat) = 5 from rfl]
  have hpf2 : pyParseFloat ([] ++ ['5']) = some (((5 : Int) : Rat)) := by
    show pyParseFloat ['5'] = _
    rw [pyParseFloat_cons_digit _ (by decide),
      pyParseFloatCore_digits (by decide) (by decide)]
    norm_num [digitsVal, charVal, show ('5'.toNat - 48 : Nat) = 5 from rfl]
  have h1 := claim_C2_step_up_down_round_trip.1 (-100) 100 25 0 [] ['2','5'] 0
    (Or.inl rfl) (by decide) (by decide) (by decide) (by decide) (by decide) (by decide)
    (by decide) (by decide) (by decide)
  have h2 := claim_C2_step_up_down_round_trip.2.1 (-100) 100 0 2 [] ['2'] ['5'] 0 25 35 1
    ⟨['2','.','5'], 0, 0, none, -100, 100, 2, false⟩ rfl (Or.inl rfl) (by decide)
    (by decide) (by decide) (by decide) (Or.inl (by decide)) hpf1 (by decide)
    (by decide) (by decide) (by norm_num) (by norm_num) (by norm_num) (by norm_num)
  have h3 := claim_C2_step_up_down_round_trip.2.2 (-100) 100 0 2 [] ['5'] 0 5 6
    ⟨['5'], 0, 0, none, -100, 100, 2, false⟩ rfl (Or.inl rfl) (by decide) (by decide)
    (by decide) (by decide) hpf2 (by decide) (by norm_num) (by norm_num) (by norm_num)
    (by norm_num)
  exact ⟨h1.1, h1.2.1, h1.2.2.1, h2.1, h2.2.1, h2.2.2.2.1, h3.1, h3.2.1, h3.2.2.2.1⟩

theorem all_takeWhile_digits (cs : List Char) :
    (cs.takeWhile pyIsDigit).all pyIsDigit = true := by
  rw [List.all_eq_true]
  intro c hc
  exact List.mem_takeWhile_imp hc

theorem decIndex_lt_length : ∀ {cs : List Char} {i : Nat}, decIndex cs = some i →
    i < cs.length := by
  intro cs
  induction cs with
  | nil => intro i h; exact absurd h (by simp [decIndex])
  | cons c t ih =>
      intro i h
      rw [decIndex] at h
      by_cases hc : c = '.'
      · rw [if_pos hc] at h
        have h0 : i = 0 := (Option.some.inj h).symm
        subst h0
        simp
      · rw [if_neg hc] at h
        rcases Option.map_eq_some'.mp h with ⟨j, hj, hij⟩
        have := ih hj
        simp only [List.length_cons]
        omega

theorem decimalsUsed_cons_nondot (c : Char) (t : List Char) (hc : ¬ c = '.') :
    decimalsUsed (c :: t) = decimalsUsed t := by
  cases hdt : decIndex t with
  | none =>
      have hct : decIndex (c :: t) = none := by
        rw [decIndex, if_neg hc, hdt]
        rfl
      rw [decimalsUsed, decimalsUsed, hct, hdt]
  | some i =>
      have hct : decIndex (c :: t) = some (i + 1) := by
        rw [decIndex, if_neg hc, hdt]
        rfl
      rw [decimalsUsed, decimalsUsed, hct, hdt]
      simp only [List.length_cons]
      omega

theorem pyParseFloatCore_decimals {cs : List Char} {q : Rat}
    (h : pyParseFloatCore cs = some q) :
    ∃ N : Int, q = (N : Rat) / 10 ^ decimalsUsed cs := by
  simp only [pyParseFloatCore] at h
  by_cases hre : (cs.dropWhile pyIsDigit).isEmpty = true
  · rw [if_pos hre] at h
    by_cases hie : (cs.takeWhile pyIsDigit).isEmpty = true
    · rw [if_pos hie] at h
      exact absurd h (by simp)
    · rw [if_neg hie] at h
      have hq : q = ((digitsVal (cs.takeWhile pyIsDigit) : Int) : Rat) :=
        (Option.some.inj h).symm
      have hdw : cs.dropWhile pyIsDigit = [] := List.isEmpty_iff.mp hre
      have hall : cs.all pyIsDigit = true := by
        have hsp := @List.takeWhile_append_dropWhile _ pyIsDigit cs
        rw [hdw, List.append_nil] at hsp
        rw [← hsp]
        exact all_takeWhile_digits cs
      have htw : cs.takeWhile pyIsDigit = cs := takeWhile_all hall
      have hnod : decIndex cs = none := by
        refine decIndex_no_dot ?_
        intro c hc
        rw [List.all_eq_true] at hall
        exact pyIsDigit_ne_dot (hall c hc)
      refine ⟨digitsVal cs, ?_⟩
      rw [htw] at hq
      simp only [decimalsUsed, hnod, pow_zero, div_one]
      exact hq
  · rw [if_neg hre] at h
    by_cases hdot : (cs.dropWhile pyIsDigit).head? = some '.'
    · rw [if_pos hdot] at h
      obtain ⟨t, hrt⟩ : ∃ t, cs.dropWhile pyIsDigit = '.' :: t := by
        cases hcs : cs.dropWhile pyIsDigit with
        | nil => exact absurd hdot (by simp [hcs])
        | cons r t =>
            rw [hcs, List.head?_cons] at hdot
            exact ⟨t, by rw [Option.some.inj hdot]⟩
      rw [hrt] at h
      simp only [List.tail_cons] at h
      by_cases hcond : (t.all pyIsDigit &&
          (!(cs.takeWhile pyIsDigit).isEmpty || !t.isEmpty)) = true
      · rw [if_pos hcond] at h
        have hq : q = ((digitsVal (cs.takeWhile pyIsDigit) : Int) : Rat) +
            ((digitsVal t : Int) : Rat) / 10 ^ t.length := (Option.some.inj h).symm
        have hcseq : cs = cs.takeWhile pyIsDigit ++ '.' :: t := by
          conv_lhs => rw [← @List.takeWhile_append_dropWhile _ pyIsDigit cs]
          rw [hrt]
        have hnod : ∀ c ∈ cs.takeWhile pyIsDigit, c ≠ '.' := by
          intro c hc
          exact pyIsDigit_ne_dot (List.mem_takeWhile_imp hc)
        have hdec : decIndex cs = some (cs.takeWhile pyIsDigit).length := by
          conv_lhs => rw [hcseq]
          exact decIndex_append_dot t hnod
        have hlen : cs.length = (cs.takeWhile pyIsDigit).length + 1 + t.length := by
          conv_lhs => rw [hcseq]
          simp only [List.length_append, List.length_cons]
          omega
        refine ⟨digitsVal (cs.takeWhile pyIsDigit) * 10 ^ t.length + digitsVal t, ?_⟩
        have hdu : decimalsUsed cs = t.length := by
          simp only [decimalsUsed, hdec]
          omega
        rw [hdu, hq]
        have hp : ((10 : Rat)) ^ t.length ≠ 0 := by positivity
        push_cast
        field_simp
      · rw [if_neg hcond] at h
        exact absurd h (by simp)
    · rw [if_neg hdot] at h
      exact absurd h (by simp)

theorem pyParseFloat_decimals {cs : List Char} {q : Rat}
    (h : pyParseFloat cs = some q) :
    ∃ N : Int, q = (N : Rat) / 10 ^ decimalsUsed cs := by
  rw [pyParseFloat] at h
  by_cases hm : cs.head? = some '-'
  · rw [if_pos hm] at h
    obtain ⟨t, hcs⟩ : ∃ t, cs = '-' :: t := by
      cases cs with
      | nil => exact absurd hm (by simp)
      | cons c t =>
          rw [List.head?_cons] at hm
          exact ⟨t, by rw [Option.some.inj hm]⟩
    subst hcs
    simp only [List.tail_cons] at h
    rcases Option.map_eq_some'.mp h with ⟨q0, hq0, hqq⟩
    obtain ⟨N, hN⟩ := pyParseFloatCore_decimals hq0
    refine ⟨-N, ?_⟩
    rw [decimalsUsed_cons_nondot '-' t (by decide), ← hqq, hN]
    push_cast
    ring
  · rw [if_neg hm] at h
    by_cases hp : cs.head? = some '+'
    · rw [if_pos hp] at h
      obtain ⟨t, hcs⟩ : ∃ t, cs = '+' :: t := by
        cases cs with
        | nil => exact absurd hp (by simp)
        | cons c t =>
            rw [List.head?_cons] at hp
            exact ⟨t, by rw [Option.some.inj hp]⟩
      subst hcs
      simp only [List.tail_cons] at h
      obtain ⟨N, hN⟩ := pyParseFloatCore_decimals h
      refine ⟨N, ?_⟩
      rw [decimalsUsed_cons_nondot '+' t (by decide), hN]
    · rw [if_neg hp] at h
      exact pyParseFloatCore_decimals h

theorem match_value_to_text_eq (value : Rat) (text : List Char) (exponent : Int) :
    FloatLineEdit.match_value_to_text value text exponent =
      formatFloatPadded (pyRound value (stepPadDecimal text exponent))
        (stepPadTotal value text exponent) (stepPadDecimal text exponent) := rfl

theorem float_repr_aux (q0 : Rat) (M : Int) (dU : Nat) (hq0 : q0 = (M : Rat) / 10 ^ dU)
    (amt : Int) (e : Int) (pd : Nat) (hdU : dU ≤ pd) (he : -e ≤ (pd : Int)) :
    ∃ N : Int, q0 + (amt : Rat) * (10 : Rat) ^ e = (N : Rat) / 10 ^ pd := by
  refine ⟨M * 10 ^ (pd - dU) + amt * 10 ^ ((e + pd).toNat), ?_⟩
  have hten : (10 : Rat) ≠ 0 := by norm_num
  have h1 : (M : Rat) / 10 ^ dU = ((M : Rat) * 10 ^ (pd - dU)) / 10 ^ pd := by
    rw [div_eq_div_iff (by positivity) (by positivity), mul_assoc, ← pow_add]
    congr 2
    omega
  have h2 : (amt : Rat) * (10 : Rat) ^ e =
      ((amt : Rat) * 10 ^ ((e + pd).toNat)) / 10 ^ pd := by
    rw [eq_div_iff (by positivity), mul_assoc]
    congr 1
    rw [← zpow_natCast (10 : Rat) ((e + pd).toNat), ← zpow_natCast (10 : Rat) pd,
      ← zpow_add₀ hten]
    congr 1
    omega
  rw [hq0, h1, h2, div_add_div_same]
  congr 1
  push_cast
  ring

theorem float_step_value_repr (s : FloatLineEdit) (amt : Int) (text : List Char) (e : Int)
    (htext : text = if s.text.isEmpty then ['0'] else s.text) :
    ∃ N : Int, s.value + (amt : Rat) * (10 : Rat) ^ e =
      (N : Rat) / 10 ^ stepPadDecimal text e := by
  have hpd_e : -e ≤ (stepPadDecimal text e : Int) :=
    le_trans (le_max_right _ _) (Int.self_le_toNat _)
  rcases hparse : pyParseFloat s.text with _ | q
  · have hv : s.value = 0 := by
      rw [FloatLineEdit.value, hparse]
      rfl
    rw [hv]
    obtain ⟨N, hN⟩ := float_repr_aux 0 0 0 (by norm_num) amt e (stepPadDecimal text e)
      (Nat.zero_le _) hpd_e
    exact ⟨N, hN⟩
  · have hv : s.value = q := by
      rw [FloatLineEdit.value, hparse]
      rfl
    have hne : s.text ≠ [] := by
      intro hc
      rw [hc, show pyParseFloat ([] : List Char) = none from rfl] at hparse
      exact Option.noConfusion hparse
    have htext' : text = s.text := by
      rw [htext, if_neg]
      simp [List.isEmpty_iff, hne]
    obtain ⟨M, hM⟩ := pyParseFloat_decimals hparse
    have hdU : decimalsUsed s.text ≤ stepPadDecimal text e := by
      rw [htext', stepPadDecimal, decimalsUsed]
      cases hdec : decIndex s.text with
      | none => simp
      | some i =>
          have hi : i < s.text.length := decIndex_lt_length hdec
          simp only [hdec]
          have hle : ((s.text.length : Int) - 1 - i) ≤
              max ((s.text.length : Int) - 1 - i) (-e) := le_max_left _ _
          have h2 := Int.self_le_toNat (max ((s.text.length : Int) - 1 - i) (-e))
          omega
    obtain ⟨N, hN⟩ := float_repr_aux q M (decimalsUsed s.text) hM amt e
      (stepPadDecimal text e) hdU hpd_e
    refine ⟨N, ?_⟩
    rw [hv]
    exact hN

theorem intAcceptable_match_out (bottom top v : Int) (text : List Char) (e : Nat)
    (hout : v < bottom ∨ top < v) :
    intAcceptable bottom top (IntLineEdit.match_value_to_text v text e) = false := by
  simp only [IntLineEdit.match_value_to_text, intAcceptable]
  rw [pyParseInt_formatIntPadded]
  simp only [decide_eq_false_iff_not]
  omega

theorem doubleAcceptable_match_out (bottom top v : Rat) (dec : Nat) (text : List Char)
    (e : Int) (N : Int) (hrepr : v = (N : Rat) / 10 ^ stepPadDecimal text e)
    (hout : v < bottom ∨ top < v) :
    doubleAcceptable bottom top dec (FloatLineEdit.match_value_to_text v text e) = false := by
  rw [hrepr] at hout ⊢
  rw [match_value_to_text_eq, pyRound_exact, doubleAcceptable, pyParseFloat_format_exact]
  simp only [decide_eq_false_iff_not]
  intro hc
  rcases hout with h | h
  · linarith [hc.1]
  · linarith [hc.2.1]

theorem int_step_out_of_range (s : IntLineEdit) (add : Bool) (text : List Char)
    (position : Nat) (v1 : Int)
    (htext : text = if s.text.isEmpty then ['0'] else s.text)
    (hpos : position = match s.selection with | some sel => sel.1 | none => s.cursor)
    (hv1 : v1 = s.value + (if add then 1 else -1) *
      10 ^ IntLineEdit.step_exponent (IntLineEdit.step_index text position))
    (hout : v1 < s.bottom ∨ s.top < v1) :
    s.step add = (s, false) := by
  subst htext
  subst hpos
  have hfail := intAcceptable_match_out s.bottom s.top v1
    (if s.text.isEmpty then ['0'] else s.text)
    (IntLineEdit.step_exponent (IntLineEdit.step_index
      (if s.text.isEmpty then ['0'] else s.text)
      (match s.selection with | some sel => sel.1 | none => s.cursor))) hout
  simp only [IntLineEdit.step]
  rw [← hv1]
  by_cases hg : ((match s.selection with | some sel => sel.1 | none => s.cursor) <
      (if s.text.isEmpty then ['0'] else s.text).length ∧
      pyIsDigit ((if s.text.isEmpty then ['0'] else s.text).getD
        (match s.selection with | some sel => sel.1 | none => s.cursor) ' ') = false)
  · rw [if_pos hg]
  · rw [if_neg hg]
    simp only [hfail, Bool.false_eq_true, if_false]

theorem float_step_out_of_range (s : FloatLineEdit) (add : Bool) (text : List Char)
    (position : Nat) (e : Int) (v1 : Rat)
    (htext : text = if s.text.isEmpty then ['0'] else s.text)
    (hpos : position = match s.selection with | some sel => sel.1 | none => s.cursor)
    (he : e = FloatLineEdit.step_exponent (FloatLineEdit.step_index text position))
    (hv1 : v1 = s.value + (if add then 1 else -1) * (10 : Rat) ^ e)
    (hout : v1 < s.bottom ∨ s.top < v1) :
    s.step add = (s, false) := by
  subst htext
  subst hpos
  have hamt : (((if add then 1 else -1) : Int) : Rat) = (if add then (1 : Rat) else -1) := by
    cases add <;> simp
  obtain ⟨N, hN⟩ := float_step_value_repr s (if add then 1 else -1)
    (if s.text.isEmpty then ['0'] else s.text) e rfl
  rw [hamt] at hN
  have hv1N : v1 = (N : Rat) / 10 ^
      stepPadDecimal (if s.text.isEmpty then ['0'] else s.text) e := by
    rw [hv1]
    exact hN
  have hfail := doubleAcceptable_match_out s.bottom s.top v1 s.decimals
    (if s.text.isEmpty then ['0'] else s.text) e N hv1N hout
  simp only [FloatLineEdit.step]
  rw [← he, ← hv1]
  by_cases hg : ((match s.selection with | some sel => sel.1 | none => s.cursor) <
      (if s.text.isEmpty then ['0'] else s.text).length ∧
      pyIsDigit ((if s.text.isEmpty then ['0'] else s.text).getD
        (match s.selection with | some sel => sel.1 | none => s.cursor) ' ') = false)
  · rw [if_pos hg]
  · rw [if_neg hg]
    simp only [hfail, Bool.false_eq_true, if_false]

/-- C3: for every numeric line edit, integer or float, a step whose computed
result value v1 lies outside [bottom, top] returns the state completely
unchanged (text, cached value, cursor and selection all included) and
reports failure. -/
theorem claim_C3_out_of_range_step_no_side_effect :
    (∀ (s : IntLineEdit) (add : Bool) (text : List Char) (position : Nat) (v1 : Int),
      text = (if s.text.isEmpty then ['0'] else s.text) →
      position = (match s.selection with | some sel => sel.1 | none => s.cursor) →
      v1 = s.value + (if add then 1 else -1) *
        10 ^ IntLineEdit.step_exponent (IntLineEdit.step_index text position) →
      (v1 < s.bottom ∨ s.top < v1) →
      s.step add = (s, false)) ∧
    (∀ (s : FloatLineEdit) (add : Bool) (text : List Char) (position : Nat) (e : Int)
      (v1 : Rat),
      text = (if s.text.isEmpty then ['0'] else s.text) →
      position = (match s.selection with | some sel => sel.1 | none => s.cursor) →
      e = FloatLineEdit.step_exponent (FloatLineEdit.step_index text position) →
      v1 = s.value + (if add then 1 else -1) * (10 : Rat) ^ e →
      (v1 < s.bottom ∨ s.top < v1) →
      s.step add = (s, false)) := by
  constructor
  · intro s add text position v1 htext hpos hv1 hout
    exact int_step_out_of_range s add text position v1 htext hpos hv1 hout
  · intro s add text position e v1 htext hpos he hv1 hout
    exact float_step_out_of_range s add text position e v1 htext hpos he hv1 hout

theorem claim_C3_out_of_range_step_no_side_effect_witness :
    (⟨['9', '9'], 0, 0, none, 0, 100, false⟩ : IntLineEdit).step true =
      ((⟨['9', '9'], 0, 0, none, 0, 100, false⟩ : IntLineEdit), false) ∧
    (⟨['9', '9'], 0, 0, none, 0, 100, 2, false⟩ : FloatLineEdit).step true =
      ((⟨['9', '9'], 0, 0, none, 0, 100, 2, false⟩ : FloatLineEdit), false) := by
  have hval99 : (⟨['9', '9'], 0, 0, none, 0, 100, 2, false⟩ : FloatLineEdit).value =
      ((99 : Int) : Rat) := by
    rw [FloatLineEdit.value]
    show (pyParseFloat ['9', '9']).getD 0 = _
    rw [pyParseFloat_cons_digit _ (by decide),
      pyParseFloatCore_digits (by decide) (by decide), Option.getD_some]
    exact congrArg _ (by decide : (digitsVal ['9', '9'] : Int) = 99)
  constructor
  · exact claim_C3_out_of_range_step_no_side_effect.1
      ⟨['9', '9'], 0, 0, none, 0, 100, false⟩ true ['9', '9'] 0 109 (by decide) (by decide)
      (by decide) (Or.inr (by decide))
  · refine claim_C3_out_of_range_step_no_side_effect.2
      ⟨['9', '9'], 0, 0, none, 0, 100, 2, false⟩ true ['9', '9'] 0 1 109 (by decide)
      (by decide) (by decide) ?_ (Or.inr (by norm_num))
    rw [hval99]
    norm_num

theorem setValueProp_blocked (s : IntLineEdit) (v : Int) (hb : s.blocked = true) :
    (s.setValueProp v).2 = [] := by
  rw [IntLineEdit.setValueProp]
  simp [hb]

theorem strip_padding_blocked (s : IntLineEdit) (hb : s.blocked = true) :
    (s.strip_padding).2 = [] := by
  show (s.setValueProp s.value).2 = []
  exact setValueProp_blocked s s.value hb

theorem setValue_line_blocked (s : IntLineEdit) (x : PyNum) (hb : s.blocked = true) :
    (s.setValue x).2 = [] := by
  simp only [IntLineEdit.setValue]
  by_cases h : intAcceptable s.bottom s.top (intFixup (pyStr x)) = true
  · rw [if_pos h]
    exact strip_padding_blocked _ hb
  · rw [if_neg h]

theorem set_line_value_silent (w : IntProperty) (v : Int) :
    (w.set_line_value v).2 = [] := by
  have h := setValue_line_blocked { w.line with blocked := true } (.int v) rfl
  rcases hsv : ({ w.line with blocked := true } : IntLineEdit).setValue (.int v)
    with ⟨l2, evs⟩
  rw [hsv] at h
  simp only [IntProperty.set_line_value, hsv]
  exact h

theorem int_setValue_single (w : IntProperty) (v : Int) :
    (w.setValue v).2 = [v] := by
  have h := set_line_value_silent (({ w with pvalue := v } : IntProperty).set_slider_value v) v
  rcases hsl : (({ w with pvalue := v } : IntProperty).set_slider_value v).set_line_value v
    with ⟨w3, lineEvs⟩
  rw [hsl] at h
  replace h : lineEvs = [] := h
  subst h
  simp only [IntProperty.setValue, hsl]
  rfl

theorem int2_fold_length : ∀ (evs : List Int) (w0 : Int2Property) (acc0 : List Int2),
    ((evs.foldl (fun acc _ =>
        let r := Int2Property.line_value_changed acc.1
        (r.1, acc.2 ++ r.2)) (w0, acc0)).2).length = acc0.length + evs.length := by
  intro evs
  induction evs with
  | nil =>
      intro w0 acc0
      simp
  | cons e rest ih =>
      intro w0 acc0
      rw [List.foldl_cons]
      have hstep : (let r := ((w0, acc0) : Int2Property × List Int2).1.line_value_changed;
          (r.1, ((w0, acc0) : Int2Property × List Int2).2 ++ r.2)) =
          ((Int2Property.line_value_changed w0).1,
            acc0 ++ (Int2Property.line_value_changed w0).2) := rfl
      rw [hstep, ih]
      have hone : (Int2Property.line_value_changed w0).2.length = 1 := rfl
      simp only [List.length_append, hone, List.length_cons]
      omega

theorem int2_fold_line2 : ∀ (evs : List Int) (w0 : Int2Property) (acc0 : List Int2),
    ((evs.foldl (fun acc _ =>
        let r := Int2Property.line_value_changed acc.1
        (r.1, acc.2 ++ r.2)) (w0, acc0)).1).line2 = w0.line2 := by
  intro evs
  induction evs with
  | nil =>
      intro w0 acc0
      rfl
  | cons e rest ih =>
      intro w0 acc0
      rw [List.foldl_cons]
      have hstep : (let r := ((w0, acc0) : Int2Property × List Int2).1.line_value_changed;
          (r.1, ((w0, acc0) : Int2Property × List Int2).2 ++ r.2)) =
          ((Int2Property.line_value_changed w0).1,
            acc0 ++ (Int2Property.line_value_changed w0).2) := rfl
      rw [hstep, ih]
      rfl

theorem int2_setValue_events (w : Int2Property) (v : Int2) :
    (w.setValue v).2.length =
      (w.line1.setValue v.x).2.length + (w.line2.setValue v.y).2.length + 1 := by
  rcases hA : ({ w with pvalue := v } : Int2Property).line1.setValue v.x with ⟨l1, evs1⟩
  have hA' : w.line1.setValue v.x = (l1, evs1) := hA
  rcases hB : w.line2.setValue v.y with ⟨l2, evs2⟩
  simp only [Int2Property.setValue, hA, int2_fold_line2, hB, int2_fold_length,
    List.length_append, List.length_cons, List.length_nil, hA']
  omega

/-- C1 (amended): an external assignment widget.value = v emits exactly one
valueChanged on IntProperty, whose internal pushes into the slider and the
line edit are signal blocked; on Int2Property the pushes into the two line
edits are not signal blocked, so the assignment emits one valueChanged per
escaped line edit emission plus the final one. -/
theorem claim_C1_one_emission_per_assignment :
    (∀ (w : IntProperty) (v : Int), (w.setValue v).2 = [v]) ∧
    (∀ (w : Int2Property) (v : Int2),
      (w.setValue v).2.length =
        (w.line1.setValue v.x).2.length + (w.line2.setValue v.y).2.length + 1) := by
  constructor
  · intro w v
    exact int_setValue_single w v
  · intro w v
    exact int2_setValue_events w v

/-- C1 counterexample to the original claim: an Int2Property whose two line
edits show 0 receives the accepted value Int2(1, 2) and emits three
valueChanged events, not one. -/
theorem claim_C1_int2_triple_emission :
    ((⟨⟨.int 0, .int 0⟩,
        ⟨['0'], 0, 0, none, -100, 100, false⟩,
        ⟨['0'], 0, 0, none, -100, 100, false⟩⟩ : Int2Property).setValue
      (Int2.init (.int 1) (.int 2))).2 =
      [⟨.int 1, .int 0⟩, ⟨.int 1, .int 2⟩, ⟨.int 1, .int 2⟩] := by
  decide

/-- C4: with the caret on the decimal point of a float editor (text 1.00,
position 1), step(add) hits the inherited non digit guard and returns the
state unchanged with False; the step_exponent special case mapping step
index 0 to the first decimal place is unreachable from step. -/
theorem claim_C4_caret_on_decimal_point_rejected :
    (⟨['1', '.', '0', '0'], 0, 1, none, -100, 100, 2, false⟩ : FloatLineEdit).step true =
      ((⟨['1', '.', '0', '0'], 0, 1, none, -100, 100, 2, false⟩ : FloatLineEdit), false) ∧
    FloatLineEdit.step_exponent (FloatLineEdit.step_index ['1', '.', '0', '0'] 1) = -1 := by
  constructor
  · rfl
  · decide

theorem pyIsDigit_ne_comma {c : Char} (h : pyIsDigit c = true) : c ≠ ',' := by
  intro hc
  subst hc
  exact absurd h (by decide)

theorem intFixup_formatIntPadded (v : Int) (p : Nat) :
    intFixup (formatIntPadded v p) = formatIntPadded v p := by
  rw [intFixup, List.filter_eq_self]
  intro c hc
  rw [formatIntPadded_eq] at hc
  rw [List.mem_append] at hc
  rcases hc with hc | hc
  · by_cases h : v < 0
    · rw [if_pos h, List.mem_singleton] at hc
      subst hc
      decide
    · rw [if_neg h] at hc
      exact absurd hc (List.not_mem_nil c)
  · rw [List.mem_append] at hc
    rcases hc with hc | hc
    · rw [List.eq_of_mem_replicate hc]
      decide
    · have hnd := natDigits_all v.natAbs
      rw [List.all_eq_true] at hnd
      simpa using pyIsDigit_ne_comma (hnd c hc)

theorem strip_padding_fst_value (s : IntLineEdit) :
    ((s.strip_padding).1).value = s.value := by
  show (pyParseInt (formatIntPadded s.value 0)).getD 0 = s.value
  rw [pyParseInt_formatIntPadded]
  rfl

theorem int_setValue_roundtrip (s : IntLineEdit) (v : Int)
    (hlo : s.bottom ≤ v) (hhi : v ≤ s.top) :
    ((s.setValue (.int v)).1).value = v := by
  simp only [IntLineEdit.setValue]
  have hfix : intFixup (pyStr (PyNum.int v)) = formatIntPadded v 0 :=
    intFixup_formatIntPadded v 0
  rw [hfix]
  have hacc : intAcceptable s.bottom s.top (formatIntPadded v 0) = true := by
    rw [intAcceptable, pyParseInt_formatIntPadded]
    simp only [decide_eq_true_eq]
    exact ⟨hlo, hhi⟩
  rw [if_pos hacc, strip_padding_fst_value]
  show (pyParseInt (formatIntPadded v 0)).getD 0 = v
  rw [pyParseInt_formatIntPadded]
  rfl

theorem pyParseFloat_strInt (v : Int) : pyParseFloat (strInt v) = some ((v : Int) : Rat) := by
  show pyParseFloat (formatIntPadded v 0) = _
  rw [formatIntPadded_eq]
  have hne : zeros (0 - (if v < 0 then 1 else 0) - (natDigits v.natAbs).length) ++
      natDigits v.natAbs ≠ [] := by
    intro hcontra
    exact natDigits_ne_nil v.natAbs (List.append_eq_nil.mp hcontra).2
  have hall : (zeros (0 - (if v < 0 then 1 else 0) - (natDigits v.natAbs).length) ++
      natDigits v.natAbs).all pyIsDigit = true := by
    rw [List.all_append, zeros_all, natDigits_all]
    rfl
  rw [pyParseFloat_ite_digits (v < 0) _ hne hall]
  rw [digitsVal_zeros_prepend, digitsVal_natDigits]
  congr 1
  by_cases h : v < 0
  · rw [if_pos h]
    have hv : ((v.natAbs : Int) : Rat) = -(v : Rat) := by
      have : (v.natAbs : Int) = -v := by omega
      rw [this]
      push_cast
      ring
    rw [hv]
    ring
  · rw [if_neg h]
    have hv : ((v.natAbs : Int) : Rat) = (v : Rat) := by
      have : (v.natAbs : Int) = v := by omega
      rw [this]
    rw [hv, one_mul]

theorem den_one_mul_pow (q : Rat) (k m : Nat) (h : (q * 10 ^ k).den = 1) :
    (q * 10 ^ (k + m)).den = 1 := by
  have hsplit : q * 10 ^ (k + m) = (q * 10 ^ k) * 10 ^ m := by
    rw [pow_add]
    ring
  rw [hsplit]
  have hx : (((q * 10 ^ k).num : Int) : Rat) = q * 10 ^ k :=
    (Rat.den_eq_one_iff (q * 10 ^ k)).mp h
  rw [← hx,
    show ((((q * 10 ^ k).num : Int) : Rat)) * 10 ^ m =
      ((((q * 10 ^ k).num * 10 ^ m : Int)) : Rat) by push_cast; ring]
  exact Rat.den_intCast _

theorem den_dvd_pow_ten (q : Rat) (d : Nat) (h : (q * 10 ^ d).den = 1) :
    q.den ∣ 10 ^ d := by
  have hx : (((q * 10 ^ d).num : Int) : Rat) = q * 10 ^ d :=
    (Rat.den_eq_one_iff (q * 10 ^ d)).mp h
  have hq : q = (((q * 10 ^ d).num : Int) : Rat) / ((10 ^ d : Int) : Rat) := by
    rw [hx]
    have hT : ((10 : Rat) ^ d) ≠ 0 := by positivity
    rw [show (((10 ^ d : Int)) : Rat) = (10 : Rat) ^ d by push_cast; ring]
    field_simp
  have hdvd := Rat.den_dvd ((q * 10 ^ d).num) (10 ^ d)
  rw [Rat.divInt_eq_div, ← hq] at hdvd
  have : ((10 : Int) ^ d) = ((10 ^ d : Nat) : Int) := by push_cast; ring
  rw [this, Int.natCast_dvd_natCast] at hdvd
  exact hdvd

theorem smooth_dvd_pow_self {n d : Nat} (hn : n ∣ 10 ^ d) : n ∣ 10 ^ n := by
  have hten : (10 : Nat) ^ d = 2 ^ d * 5 ^ d := by
    rw [← Nat.mul_pow]
  rw [hten] at hn
  rcases Nat.dvd_mul.mp hn with ⟨n2, n5, h2, h5, hmul⟩
  rcases (Nat.dvd_prime_pow Nat.prime_two).mp h2 with ⟨a, _, ha⟩
  rcases (Nat.dvd_prime_pow (by norm_num : Nat.Prime 5)).mp h5 with ⟨b, _, hb⟩
  have hnpos : 0 < n := by
    rcases Nat.eq_zero_or_pos n with h0 | h0
    · subst h0
      rw [Nat.zero_dvd] at hn
      have : (0 : Nat) < 2 ^ d * 5 ^ d := by positivity
      omega
    · exact h0
  have h2n : 2 ^ a ∣ n := by
    rw [← hmul, ha]
    exact Dvd.intro n5 rfl
  have h5n : 5 ^ b ∣ n := by
    rw [← hmul, hb]
    exact Dvd.intro_left n2 rfl
  have han : a ≤ n := by
    have h1 : a < 2 ^ a := Nat.lt_two_pow a
    have h2' : 2 ^ a ≤ n := Nat.le_of_dvd hnpos h2n
    omega
  have hbn : b ≤ n := by
    have h1 : b < 2 ^ b := Nat.lt_two_pow b
    have h2' : 2 ^ b ≤ 5 ^ b := Nat.pow_le_pow_left (by norm_num) b
    have h3 : 5 ^ b ≤ n := Nat.le_of_dvd hnpos h5n
    omega
  have hn' : n = 2 ^ a * 5 ^ b := by rw [← hmul, ha, hb]
  have hfinal : 2 ^ a * 5 ^ b ∣ 10 ^ n := by
    rw [show (10 : Nat) ^ n = 2 ^ n * 5 ^ n by rw [← Nat.mul_pow]]
    exact mul_dvd_mul (pow_dvd_pow 2 han) (pow_dvd_pow 5 hbn)
  exact dvd_trans (dvd_of_eq hn') hfinal

theorem den_one_of_den_dvd (q : Rat) (k : Nat) (h : q.den ∣ 10 ^ k) :
    (q * 10 ^ k).den = 1 := by
  rcases h with ⟨c, hc⟩
  have hq := Rat.num_div_den q
  have hdenne : ((q.den : Rat)) ≠ 0 := by
    have := q.den_nz
    exact_mod_cast this
  have hcalc : q * 10 ^ k = ((q.num * c : Int) : Rat) := by
    have h10 : ((10 : Rat) ^ k) = ((q.den : Rat)) * ((c : Rat)) := by
      exact_mod_cast congrArg (fun n : Nat => (n : Rat)) hc
    have hqden : q * ((q.den : Rat)) = ((q.num : Int) : Rat) := by
      nth_rewrite 1 [← hq]
      exact div_mul_cancel₀ _ hdenne
    rw [h10, ← mul_assoc, hqden]
    push_cast
    ring
  rw [hcalc]
  exact Rat.den_intCast _

theorem ratDecimals_exact (q : Rat) (d : Nat) (h : (q * 10 ^ d).den = 1) :
    (q * 10 ^ ratDecimals q).den = 1 := by
  have hdvd : q.den ∣ 10 ^ d := den_dvd_pow_ten q d h
  have hself : q.den ∣ 10 ^ q.den := smooth_dvd_pow_self hdvd
  have hden1 : (q * 10 ^ q.den).den = 1 := den_one_of_den_dvd q q.den hself
  rw [ratDecimals]
  have hsome : ((List.range (q.den + 1)).find?
      (fun k => decide ((q * 10 ^ k).den = 1))).isSome := by
    rw [List.find?_isSome]
    refine ⟨q.den, by simp, ?_⟩
    simpa using hden1
  obtain ⟨k, hk⟩ := Option.isSome_iff_exists.mp hsome
  rw [hk, Option.getD_some]
  have hprop := List.find?_some hk
  simpa using hprop

theorem pyParseFloat_strFloat (q : Rat) (d : Nat) (h : (q * 10 ^ d).den = 1) :
    pyParseFloat (strFloat q) = some q := by
  rw [strFloat, formatFloat]
  have hrd := ratDecimals_exact q d h
  set D := max 1 (ratDecimals q) with hD
  have hden : (q * 10 ^ D).den = 1 := by
    rw [show D = ratDecimals q + (D - ratDecimals q) by omega]
    exact den_one_mul_pow q _ _ hrd
  have hq : q = (((q * 10 ^ D).num : Int) : Rat) / 10 ^ D := by
    rw [eq_div_iff (by positivity)]
    exact ((Rat.den_eq_one_iff _).mp hden).symm
  rw [hq, pyParseFloat_format_exact]

theorem pyRoundInt_dist (x : Rat) : |((pyRoundInt x : Int) : Rat) - x| ≤ 1 / 2 := by
  simp only [pyRoundInt]
  have h1 : ((⌊x⌋ : Int) : Rat) ≤ x := Int.floor_le x
  have h2 : x < ⌊x⌋ + 1 := Int.lt_floor_add_one x
  by_cases hf : x - ((⌊x⌋ : Int) : Rat) < 1 / 2
  · rw [if_pos hf, abs_le]
    constructor <;> linarith
  · rw [if_neg hf]
    by_cases hf2 : 1 / 2 < x - ((⌊x⌋ : Int) : Rat)
    · rw [if_pos hf2, abs_le]
      push_cast
      constructor <;> linarith
    · rw [if_neg hf2]
      by_cases hev : ⌊x⌋ % 2 = 0
      · rw [if_pos hev, abs_le]
        constructor <;> linarith
      · rw [if_neg hev, abs_le]
        push_cast
        constructor <;> linarith

theorem pyRound_dist (v : Rat) (d : Nat) : |pyRound v d - v| ≤ 1 / 2 / 10 ^ d := by
  have h10 : (0 : Rat) < 10 ^ d := by positivity
  have hsplit : pyRound v d - v =
      (((pyRoundInt (v * 10 ^ d) : Int) : Rat) - v * 10 ^ d) / 10 ^ d := by
    rw [pyRound]
    field_simp
    ring
  rw [hsplit, abs_div, abs_of_pos h10]
  rw [div_le_div_iff_of_pos_right h10]
  exact pyRoundInt_dist (v * 10 ^ d)

theorem float_strip_padding_fst_value (s : FloatLineEdit) (d : Nat)
    (hden : (s.value * 10 ^ d).den = 1) :
    ((s.strip_padding).1).value = s.value := by
  simp only [FloatLineEdit.strip_padding, FloatLineEdit.setValueProp]
  by_cases hint : ((pyTrunc s.value : Int) : Rat) = s.value
  · rw [if_pos hint]
    show (pyParseFloat (strInt (pyTrunc s.value))).getD 0 = s.value
    rw [pyParseFloat_strInt, Option.getD_some]
    exact hint
  · rw [if_neg hint]
    show (pyParseFloat (strFloat s.value)).getD 0 = s.value
    rw [pyParseFloat_strFloat s.value d hden, Option.getD_some]

theorem float_setValue_roundtrip (s : FloatLineEdit) (v : Rat) (d : Nat)
    (hden : (v * 10 ^ d).den = 1)
    (hlo : s.bottom ≤ v) (hhi : v ≤ s.top)
    (hlo1 : s.bottom ≤ pyRound v s.decimals) (hhi1 : pyRound v s.decimals ≤ s.top) :
    ∃ s1 evs, s.setValue v = .ok (s1, evs) ∧ s1.value = pyRound v s.decimals := by
  have hparse : pyParseFloat (pyStr (.float v)) = some v := pyParseFloat_strFloat v d hden
  have hclamp : min (max v s.bottom) s.top = v := by
    rw [max_eq_left hlo, min_eq_left hhi]
  have hfix : DoubleValidator.fixup s.bottom s.top s.decimals (pyStr (.float v)) =
      .ok (formatFloat (pyRound v s.decimals) s.decimals) := by
    rw [DoubleValidator.fixup, hparse]
    show Except.ok (formatFloat (pyRound (min (max v s.bottom) s.top) s.decimals)
      s.decimals) = _
    rw [hclamp]
  have hr : pyRound v s.decimals =
      ((pyRoundInt (v * 10 ^ s.decimals) : Int) : Rat) / 10 ^ s.decimals := rfl
  have hparse2 : pyParseFloat (formatFloat (pyRound v s.decimals) s.decimals) =
      some (pyRound v s.decimals) := by
    rw [formatFloat, hr, pyParseFloat_format_exact]
  have hdu : decimalsUsed (formatFloat (pyRound v s.decimals) s.decimals) ≤ s.decimals := by
    rw [formatFloat]
    by_cases hd0 : s.decimals = 0
    · rw [hd0, decimalsUsed_formatFloatPadded_zero]
    · rw [decimalsUsed_formatFloatPadded _ _ _ (by omega)]
  have hacc : doubleAcceptable s.bottom s.top s.decimals
      (formatFloat (pyRound v s.decimals) s.decimals) = true := by
    rw [doubleAcceptable, hparse2]
    simp only [decide_eq_true_eq]
    exact ⟨hlo1, hhi1, hdu⟩
  have hstep : s.setValue v =
      .ok ((s.setText (formatFloat (pyRound v s.decimals) s.decimals)).strip_padding) := by
    show (match DoubleValidator.fixup s.bottom s.top s.decimals (pyStr (.float v)) with
      | Except.error e => Except.error e
      | Except.ok t =>
          if doubleAcceptable s.bottom s.top s.decimals t then
            Except.ok ((s.setText t).strip_padding)
          else Except.ok (s, [])) = _
    rw [hfix]
    show (if doubleAcceptable s.bottom s.top s.decimals
        (formatFloat (pyRound v s.decimals) s.decimals) = true
      then (Except.ok ((s.setText (formatFloat (pyRound v s.decimals)
        s.decimals)).strip_padding) : Except PyErr (FloatLineEdit × List Rat))
      else Except.ok (s, [])) = _
    rw [if_pos hacc]
  refine ⟨((s.setText (formatFloat (pyRound v s.decimals) s.decimals)).strip_padding).1,
    ((s.setText (formatFloat (pyRound v s.decimals) s.decimals)).strip_padding).2,
    by rw [hstep], ?_⟩
  have hval : ((s.setText (formatFloat (pyRound v s.decimals) s.decimals))).value =
      pyRound v s.decimals := by
    show (pyParseFloat (formatFloat (pyRound v s.decimals) s.decimals)).getD 0 = _
    rw [hparse2, Option.getD_some]
  have hden2 : (((s.setText (formatFloat (pyRound v s.decimals) s.decimals))).value *
      10 ^ s.decimals).den = 1 := by
    rw [hval, hr, div_mul_cancel₀]
    · exact Rat.den_intCast _
    · positivity
  rw [float_strip_padding_fst_value _ s.decimals hden2, hval]

/-- C5 (amended): committing setValue(v) for in range v reads back exactly v
on the integer editor; on the float editor, for a value v writable with
finitely many decimals (every Python float is) whose rounding to the
configured decimals also stays within bounds, setValue commits and reads
back round(v, decimals), which is within half an ulp of the configured
precision of v. -/
theorem claim_C5_set_value_read_back :
    (∀ (s : IntLineEdit) (v : Int), s.bottom ≤ v → v ≤ s.top →
      ((s.setValue (.int v)).1).value = v) ∧
    (∀ (s : FloatLineEdit) (v : Rat) (d : Nat),
      (v * 10 ^ d).den = 1 →
      s.bottom ≤ v → v ≤ s.top →
      s.bottom ≤ pyRound v s.decimals → pyRound v s.decimals ≤ s.top →
      ∃ s1 evs, s.setValue v = .ok (s1, evs) ∧
        s1.value = pyRound v s.decimals ∧
        |s1.value - v| ≤ 1 / 2 / 10 ^ s.decimals) := by
  constructor
  · intro s v hlo hhi
    exact int_setValue_roundtrip s v hlo hhi
  · intro s v d hden hlo hhi hlo1 hhi1
    obtain ⟨s1, evs, hsv, hval⟩ := float_setValue_roundtrip s v d hden hlo hhi hlo1 hhi1
    refine ⟨s1, evs, hsv, hval, ?_⟩
    rw [hval]
    exact pyRound_dist v s.decimals

theorem claim_C5_set_value_read_back_witness :
    (((⟨['0'], 0, 0, none, -100, 100, false⟩ : IntLineEdit).setValue (.int 7)).1).value =
      7 ∧
    (∃ s1 evs,
      (⟨['0'], 0, 0, none, -100, 100, 2, false⟩ : FloatLineEdit).setValue (5 / 2) =
        .ok (s1, evs) ∧ s1.value = pyRound (5 / 2) 2 ∧
        |s1.value - 5 / 2| ≤ 1 / 2 / 10 ^ (2 : Nat)) := by
  have hpr : pyRound ((5 : Rat) / 2) 2 = (5 : Rat) / 2 := by
    have h52 : ((5 : Rat) / 2) = ((250 : Int) : Rat) / 10 ^ 2 := by norm_num
    rw [h52, pyRound_exact]
  constructor
  · exact claim_C5_set_value_read_back.1 _ 7 (by decide) (by decide)
  · exact claim_C5_set_value_read_back.2 ⟨['0'], 0, 0, none, -100, 100, 2, false⟩ (5 / 2) 1
      (by norm_num) (by norm_num) (by norm_num)
      (by show (-100 : Rat) ≤ pyRound ((5 : Rat) / 2) 2; rw [hpr]; norm_num)
      (by show pyRound ((5 : Rat) / 2) 2 ≤ (100 : Rat); rw [hpr]; norm_num)

/-- C5 counterexample to the original claim: bounds [0, 99.5] with 0
configured decimals and the in range value v = 99.5; the fixup rounds the
clamped value to 100, which fails validation, so setValue commits nothing
and the read back value stays 0, not 99.5. -/
theorem claim_C5_round_escapes_bounds :
    (0 : Rat) ≤ 199 / 2 ∧ ((199 : Rat) / 2) ≤ 199 / 2 ∧
    (⟨['0'], 0, 0, none, 0, 199 / 2, 0, false⟩ : FloatLineEdit).setValue (199 / 2) =
      .ok ((⟨['0'], 0, 0, none, 0, 199 / 2, 0, false⟩ : FloatLineEdit), []) ∧
    ((⟨['0'], 0, 0, none, 0, 199 / 2, 0, false⟩ : FloatLineEdit)).value = 0 := by
  have hfl : ⌊(199 : Rat) / 2 * 10 ^ (0 : Nat)⌋ = 99 := by norm_num
  have hri : pyRoundInt ((199 : Rat) / 2 * 10 ^ (0 : Nat)) = 100 := by
    simp only [pyRoundInt]
    rw [hfl]
    rw [if_neg (by norm_num), if_neg (by norm_num), if_neg (by decide)]
    decide
  have hround : pyRound ((199 : Rat) / 2) 0 = ((100 : Int) : Rat) := by
    rw [pyRound, hri]
    norm_num
  have hparse : pyParseFloat (pyStr (.float ((199 : Rat) / 2))) =
      some ((199 : Rat) / 2) := pyParseFloat_strFloat _ 1 (by norm_num)
  have hclamp : min (max ((199 : Rat) / 2) 0) (199 / 2) = ((199 : Rat) / 2) := by
    rw [max_eq_left (by norm_num), min_eq_left (by norm_num)]
  have hfix : DoubleValidator.fixup (0 : Rat) ((199 : Rat) / 2) 0
      (pyStr (.float ((199 : Rat) / 2))) = .ok (formatFloat (((100 : Int) : Rat)) 0) := by
    rw [DoubleValidator.fixup, hparse]
    show Except.ok (formatFloat (pyRound (min (max ((199 : Rat) / 2) 0) (199 / 2)) 0) 0) = _
    rw [hclamp, hround]
  have hacc : doubleAcceptable (0 : Rat) ((199 : Rat) / 2) 0
      (formatFloat (((100 : Int) : Rat)) 0) = false := by
    rw [formatFloat, doubleAcceptable, pyParseFloat_format_zero]
    simp only [decide_eq_false_iff_not]
    intro hc
    have h2 := hc.2.1
    norm_num at h2
  refine ⟨by norm_num, le_refl _, ?_, ?_⟩
  · show (match DoubleValidator.fixup (0 : Rat) ((199 : Rat) / 2) 0
        (pyStr (.float ((199 : Rat) / 2))) with
      | Except.error e => Except.error e
      | Except.ok t =>
          if doubleAcceptable (0 : Rat) ((199 : Rat) / 2) 0 t then
            Except.ok (((⟨['0'], 0, 0, none, 0, 199 / 2, 0, false⟩ :
              FloatLineEdit).setText t).strip_padding)
          else Except.ok ((⟨['0'], 0, 0, none, 0, 199 / 2, 0, false⟩ :
            FloatLineEdit), [])) = _
    rw [hfix]
    show (if doubleAcceptable (0 : Rat) ((199 : Rat) / 2) 0
        (formatFloat (((100 : Int) : Rat)) 0) = true
      then (Except.ok (((⟨['0'], 0, 0, none, 0, 199 / 2, 0, false⟩ :
        FloatLineEdit).setText (formatFloat (((100 : Int) : Rat)) 0)).strip_padding) :
          Except PyErr (FloatLineEdit × List Rat))
      else Except.ok ((⟨['0'], 0, 0, none, 0, 199 / 2, 0, false⟩ :
        FloatLineEdit), [])) = _
    rw [if_neg (by rw [hacc]; decide)]
  · show (pyParseFloat ['0']).getD 0 = 0
    rw [pyParseFloat_cons_digit _ (by decide),
      pyParseFloatCore_digits (by decide) (by decide), Option.getD_some]
    rw [show (digitsVal ['0'] : Int) = 0 from by decide]
    norm_num

theorem linked_inv_pres (s : LinkedRow) (e : LinkEvent)
    (h1 : s.subs = if s.overridden then 0 else 1)
    (h2 : s.rowEnabled = s.overridden)
    (h3 : s.overridden = false → s.b = s.a) :
    ((s.stepEvent e).subs = if (s.stepEvent e).overridden then 0 else 1) ∧
    ((s.stepEvent e).rowEnabled = (s.stepEvent e).overridden) ∧
    ((s.stepEvent e).overridden = false → (s.stepEvent e).b = (s.stepEvent e).a) := by
  cases e with
  | setA v =>
      simp only [LinkedRow.stepEvent]
      by_cases hsub : s.subs ≠ 0
      · rw [if_pos hsub]
        exact ⟨h1, h2, fun _ => rfl⟩
      · rw [if_neg hsub]
        push_neg at hsub
        refine ⟨h1, h2, ?_⟩
        intro hov
        have hov' : s.overridden = false := hov
        rw [hov'] at h1
        simp at h1
        omega
  | toggle =>
      simp only [LinkedRow.stepEvent, LinkedRow.set_widget_row_enabled]
      cases hov : s.overridden with
      | true =>
          have h10 : s.subs = 0 := by
            rw [h1, hov]
            rfl
          rw [if_neg (by decide)]
          refine ⟨?_, rfl, ?_⟩
          · show s.subs + 1 = 1
            rw [h10]
          · intro _
            rfl
      | false =>
          rw [if_pos (by decide)]
          refine ⟨rfl, rfl, ?_⟩
          intro hcontra
          exact Bool.noConfusion (show (true : Bool) = false from hcontra)

theorem linked_inv_run : ∀ (evs : List LinkEvent) (s : LinkedRow),
    (s.subs = if s.overridden then 0 else 1) →
    (s.rowEnabled = s.overridden) →
    (s.overridden = false → s.b = s.a) →
    (((LinkedRow.run s evs).subs = if (LinkedRow.run s evs).overridden then 0 else 1) ∧
      ((LinkedRow.run s evs).rowEnabled = (LinkedRow.run s evs).overridden) ∧
      ((LinkedRow.run s evs).overridden = false →
        (LinkedRow.run s evs).b = (LinkedRow.run s evs).a)) := by
  intro evs
  induction evs with
  | nil =>
      intro s h1 h2 h3
      exact ⟨h1, h2, h3⟩
  | cons e rest ih =>
      intro s h1 h2 h3
      have hrw : LinkedRow.run s (e :: rest) = LinkedRow.run (s.stepEvent e) rest := rfl
      rw [hrw]
      obtain ⟨g1, g2, g3⟩ := linked_inv_pres s e h1 h2 h3
      exact ih (s.stepEvent e) g1 g2 g3

/-- C6: from a linked row's construction, after every event sequence the row
holds exactly one subscription when not overridden and zero when
overridden, the row enable state equals the override state (disabled while
mirroring), and the mirrored value equals the source value whenever not
overridden; moreover a source change updates the mirror exactly when a
subscription is live, toggling the override on disconnects and enables the
row, and toggling it off snaps the mirror to the source, adds exactly one
subscription and disables the row. -/
theorem claim_C6_link_subscription_invariant :
    (∀ (a0 d : Int) (evs : List LinkEvent),
      ((LinkedRow.run (LinkedRow.init a0 d) evs).subs =
        if (LinkedRow.run (LinkedRow.init a0 d) evs).overridden then 0 else 1) ∧
      ((LinkedRow.run (LinkedRow.init a0 d) evs).rowEnabled =
        (LinkedRow.run (LinkedRow.init a0 d) evs).overridden) ∧
      ((LinkedRow.run (LinkedRow.init a0 d) evs).overridden = false →
        (LinkedRow.run (LinkedRow.init a0 d) evs).b =
          (LinkedRow.run (LinkedRow.init a0 d) evs).a)) ∧
    (∀ (s : LinkedRow) (v : Int), s.subs ≠ 0 →
      s.stepEvent (.setA v) = { s with a := v, b := v }) ∧
    (∀ (s : LinkedRow) (v : Int), s.subs = 0 →
      s.stepEvent (.setA v) = { s with a := v }) ∧
    (∀ (s : LinkedRow), s.overridden = false →
      s.stepEvent .toggle = { s with overridden := true, rowEnabled := true, subs := 0 }) ∧
    (∀ (s : LinkedRow), s.overridden = true →
      s.stepEvent .toggle =
        { s with overridden := false, rowEnabled := false, b := s.a, subs := s.subs + 1 }) :=
  by
  refine ⟨?_, ?_, ?_, ?_, ?_⟩
  · intro a0 d evs
    exact linked_inv_run evs (LinkedRow.init a0 d) rfl rfl (fun _ => rfl)
  · intro s v h
    simp only [LinkedRow.stepEvent]
    rw [if_pos h]
  · intro s v h
    simp only [LinkedRow.stepEvent]
    rw [if_neg (by omega)]
  · intro s h
    simp only [LinkedRow.stepEvent, LinkedRow.set_widget_row_enabled]
    rw [h, if_pos (by decide)]
    rfl
  · intro s h
    simp only [LinkedRow.stepEvent, LinkedRow.set_widget_row_enabled]
    rw [h, if_neg (by decide)]
    rfl

theorem claim_C6_link_subscription_invariant_witness :
    ((LinkedRow.run (LinkedRow.init 3 0) [.setA 5, .toggle, .setA 7, .toggle]).subs =
      if (LinkedRow.run (LinkedRow.init 3 0)
        [.setA 5, .toggle, .setA 7, .toggle]).overridden then 0 else 1) ∧
    ((⟨5, 5, 1, false, false⟩ : LinkedRow).stepEvent (.setA 9) = ⟨9, 9, 1, false, false⟩) ∧
    ((⟨5, 5, 0, true, true⟩ : LinkedRow).stepEvent (.setA 9) = ⟨9, 5, 0, true, true⟩) ∧
    ((⟨5, 5, 1, false, false⟩ : LinkedRow).stepEvent .toggle = ⟨5, 5, 0, true, true⟩) ∧
    ((⟨9, 5, 0, true, true⟩ : LinkedRow).stepEvent .toggle = ⟨9, 9, 1, false, false⟩) := by
  refine ⟨(claim_C6_link_subscription_invariant.1 3 0
      [.setA 5, .toggle, .setA 7, .toggle]).1, ?_, ?_, ?_, ?_⟩
  · exact claim_C6_link_subscription_invariant.2.1 ⟨5, 5, 1, false, false⟩ 9 (by decide)
  · exact claim_C6_link_subscription_invariant.2.2.1 ⟨5, 5, 0, true, true⟩ 9 (by decide)
  · exact claim_C6_link_subscription_invariant.2.2.2.1 ⟨5, 5, 1, false, false⟩ (by decide)
  · exact claim_C6_link_subscription_invariant.2.2.2.2 ⟨9, 5, 0, true, true⟩ (by decide)

theorem alookup_map_kp {κ α : Type} [DecidableEq κ] (k : κ) (f : κ × α → κ × α)
    (hf : ∀ p, (f p).1 = p.1) :
    ∀ l : List (κ × α), alookup k (l.map f) = (alookup k l).map (fun v => (f (k, v)).2) := by
  intro l
  induction l with
  | nil => rfl
  | cons p rest ih =>
      obtain ⟨pk, pv⟩ := p
      simp only [List.map_cons, alookup]
      rw [hf (pk, pv)]
      by_cases hk : pk = k
      · subst hk
        rw [if_pos rfl, if_pos rfl]
        rfl
      · rw [if_neg hk, if_neg hk]
        exact ih

theorem group_setValues_lookup {α : Type} (grp : PropertyGroup α)
    (gvs : List (String × α)) (n : String) :
    alookup n (grp.setValues gvs).widgets =
      (alookup n grp.widgets).map (fun w =>
        match alookup n gvs with
        | none => w
        | some x => { w with value := x }) := by
  have hf : ∀ p : String × StoreWidget α,
      ((fun p : String × StoreWidget α =>
        match alookup p.1 gvs with
        | some x => (p.1, ({ p.2 with value := x } : StoreWidget α))
        | none => p) p).1 = p.1 := by
    intro p
    beta_reduce
    cases halk : alookup p.1 gvs <;> rfl
  show alookup n (grp.widgets.map _) = _
  rw [alookup_map_kp n _ hf]
  congr 1
  funext v
  cases halk : alookup n gvs <;> rfl

theorem tab_setValues_lookup {α : Type} (gs : List (Option String × PropertyGroup α))
    (tvs : List (Option String × List (String × α))) (g : Option String) :
    alookup g (gs.map (fun p =>
      match alookup p.1 tvs with
      | none => p
      | some gvs => (p.1, p.2.setValues gvs))) =
      (alookup g gs).map (fun grp =>
        match alookup g tvs with
        | none => grp
        | some gvs => grp.setValues gvs) := by
  have hf : ∀ p : Option String × PropertyGroup α,
      ((fun p : Option String × PropertyGroup α =>
        match alookup p.1 tvs with
        | none => p
        | some gvs => (p.1, p.2.setValues gvs)) p).1 = p.1 := by
    intro p
    beta_reduce
    cases halk : alookup p.1 tvs <;> rfl
  rw [alookup_map_kp g _ hf]
  congr 1
  funext grp
  cases halk : alookup g tvs <;> rfl

theorem editor_setValues_lookup {α : Type} (e : PropertyEditor α) (vs : ValueTree α)
    (t : Option String) :
    alookup t (e.setValues vs).groups =
      (alookup t e.groups).map (fun gs =>
        match alookup t vs with
        | none => gs
        | some tvs => gs.map (fun p =>
            match alookup p.1 tvs with
            | none => p
            | some gvs => (p.1, p.2.setValues gvs))) := by
  have hf : ∀ p : Option String × List (Option String × PropertyGroup α),
      ((fun p : Option String × List (Option String × PropertyGroup α) =>
        match alookup p.1 vs with
        | none => p
        | some tvs => (p.1, p.2.map (fun q : Option String × PropertyGroup α =>
            match alookup q.1 tvs with
            | none => q
            | some gvs => (q.1, q.2.setValues gvs)))) p).1 = p.1 := by
    intro p
    beta_reduce
    cases halk : alookup p.1 vs <;> rfl
  show alookup t (e.groups.map _) = _
  rw [alookup_map_kp t _ hf]
  congr 1
  funext gs
  cases halk : alookup t vs <;> rfl

/-- C7: assigning a nested value tree through the editor values setter is a
partial merge: a widget named by the incoming tree at a (tab, group, name)
triple that exists in the editor reads back the incoming value, a widget
whose triple is absent from the tree keeps its prior value, entries of the
tree without a matching widget are ignored, and the set of known triples is
unchanged. -/
theorem claim_C7_values_partial_merge {α : Type} (e : PropertyEditor α) (vs : ValueTree α)
    (t g : Option String) (n : String) :
    (((e.setValues vs).lookupValue t g n).isSome = (e.lookupValue t g n).isSome) ∧
    (∀ x : α, treeLookup vs t g n = some x → (e.lookupValue t g n).isSome = true →
      (e.setValues vs).lookupValue t g n = some x) ∧
    (treeLookup vs t g n = none →
      (e.setValues vs).lookupValue t g n = e.lookupValue t g n) := by
  simp only [PropertyEditor.lookupValue, treeLookup, editor_setValues_lookup]
  cases h1 : alookup t e.groups with
  | none =>
      simp only [Option.map_none']
      exact ⟨(by trivial), fun x hx hc => absurd hc (by simp), fun _ => (by trivial)⟩
  | some gs =>
      simp only [Option.map_some']
      cases h2 : alookup t vs with
      | none =>
          refine ⟨(by trivial), ?_, fun _ => (by trivial)⟩
          intro x hx
          exact absurd hx (by simp)
      | some tvs =>
          simp only [tab_setValues_lookup]
          cases h3 : alookup g gs with
          | none =>
              simp only [Option.map_none']
              exact ⟨(by trivial), fun x hx hc => absurd hc (by simp), fun _ => (by trivial)⟩
          | some grp =>
              simp only [Option.map_some']
              cases h4 : alookup g tvs with
              | none =>
                  refine ⟨(by trivial), ?_, fun _ => (by trivial)⟩
                  intro x hx
                  exact absurd hx (by simp)
              | some gvs =>
                  simp only [group_setValues_lookup]
                  cases h5 : alookup n grp.widgets with
                  | none =>
                      simp only [Option.map_none']
                      refine ⟨(by trivial), ?_, fun _ => (by trivial)⟩
                      intro x hx hc
                      exact absurd hc (by simp)
                  | some w =>
                      simp only [Option.map_some']
                      cases h6 : alookup n gvs with
                      | none =>
                          exact ⟨(by trivial), fun x hx hc => absurd hx (by simp), fun _ => (by trivial)⟩
                      | some x0 =>
                          refine ⟨(by trivial), ?_, ?_⟩
                          · intro x hx _
                            rw [Option.some.inj hx]
                          · intro hcontra
                            exact absurd hcontra (by simp)

theorem int2_init_wf (x y : PyNum) : (Int2.init x y).wellFormed = true := by
  cases x <;> cases y <;> rfl

/-- C8 (amended): Int2 construction floors float components toward negative
infinity, Int2(1.9, -1.9) = (1, -2), and every arithmetic operation
returns an Int2 with integer components because every result passes
through the constructor; a plain attribute assignment, however, bypasses
the dataclass __post_init__ and stores the assigned value unchanged. -/
theorem claim_C8_int2_components_integral :
    Int2.init (.float (19 / 10)) (.float (-19 / 10)) = ⟨.int 1, .int (-2)⟩ ∧
    (∀ x y : PyNum, (Int2.init x y).wellFormed = true) ∧
    (∀ (a : Int2) (o : Int2.Operand), (a.add o).wellFormed = true) ∧
    (∀ (a : Int2) (o : Int2.Operand), (a.sub o).wellFormed = true) ∧
    (∀ (a : Int2) (o : Int2.Operand), (a.mul o).wellFormed = true) ∧
    (∀ (a : Int2) (o : Int2.Operand) (r : Int2),
      a.truediv o = .ok r → r.wellFormed = true) ∧
    (∀ (a : Int2) (o : Int2.Operand) (r : Int2),
      a.floordiv o = .ok r → r.wellFormed = true) := by
  refine ⟨?_, int2_init_wf, ?_, ?_, ?_, ?_, ?_⟩
  · have h1 : ⌊(19 : Rat) / 10⌋ = 1 := by norm_num
    have h2 : ⌊(-19 : Rat) / 10⌋ = -2 := by norm_num
    show Int2.mk (.int ⌊(19 : Rat) / 10⌋) (.int ⌊(-19 : Rat) / 10⌋) = _
    rw [h1, h2]
  · intro a o
    cases o <;> exact int2_init_wf _ _
  · intro a o
    cases o <;> exact int2_init_wf _ _
  · intro a o
    cases o <;> exact int2_init_wf _ _
  · intro a o r h
    cases o with
    | scalar s => exact Except.noConfusion h
    | vec b =>
        simp only [Int2.truediv] at h
        cases hx : pyTrueDiv a.x b.x with
        | error e =>
            rw [hx] at h
            exact Except.noConfusion h
        | ok x =>
            rw [hx] at h
            cases hy : pyTrueDiv a.y b.y with
            | error e =>
                rw [hy] at h
                exact Except.noConfusion h
            | ok y =>
                rw [hy] at h
                cases h
                exact int2_init_wf x y
  · intro a o r h
    cases o with
    | scalar s => exact Except.noConfusion h
    | vec b =>
        simp only [Int2.floordiv] at h
        cases hx : pyFloorDiv a.x b.x with
        | error e =>
            rw [hx] at h
            exact Except.noConfusion h
        | ok x =>
            rw [hx] at h
            cases hy : pyFloorDiv a.y b.y with
            | error e =>
                rw [hy] at h
                exact Except.noConfusion h
            | ok y =>
                rw [hy] at h
                cases h
                exact int2_init_wf x y

/-- C8 counterexample to the original claim: a plain attribute assignment of
the float 1.9 to an Int2 component stores the float unchanged (dataclass
assignment does not rerun __post_init__), leaving a non integer
component. -/
theorem claim_C8_assignment_skips_floor :
    Int2.setattr_x ⟨.int 0, .int 0⟩ (.float (19 / 10)) = ⟨.float (19 / 10), .int 0⟩ ∧
    (Int2.setattr_x ⟨.int 0, .int 0⟩ (.float (19 / 10))).wellFormed = false := ⟨rfl, rfl⟩

/-- C9 (amended): add, sub and mul broadcast a scalar right operand to both
components for both vector types; true division and floor division read
other.x and other.y unconditionally, so a scalar right operand raises
AttributeError instead of broadcasting; a vector division with a zero
component raises ZeroDivisionError. -/
theorem claim_C9_scalar_broadcast :
    (∀ (a : Int2) (s : PyNum), a.add (.scalar s) = Int2.init (pyAdd a.x s) (pyAdd a.y s)) ∧
    (∀ (a : Int2) (s : PyNum), a.sub (.scalar s) = Int2.init (pySub a.x s) (pySub a.y s)) ∧
    (∀ (a : Int2) (s : PyNum), a.mul (.scalar s) = Int2.init (pyMul a.x s) (pyMul a.y s)) ∧
    (∀ (a : Float2) (s : PyNum),
      a.add (.scalar s) = Float2.init (pyAdd a.x s) (pyAdd a.y s)) ∧
    (∀ (a : Float2) (s : PyNum),
      a.sub (.scalar s) = Float2.init (pySub a.x s) (pySub a.y s)) ∧
    (∀ (a : Float2) (s : PyNum),
      a.mul (.scalar s) = Float2.init (pyMul a.x s) (pyMul a.y s)) ∧
    (∀ (a : Int2) (s : PyNum), a.truediv (.scalar s) = .error .attributeError) ∧
    (∀ (a : Int2) (s : PyNum), a.floordiv (.scalar s) = .error .attributeError) ∧
    (∀ (a : Float2) (s : PyNum), a.truediv (.scalar s) = .error .attributeError) ∧
    (∀ (a : Float2) (s : PyNum), a.floordiv (.scalar s) = .error .attributeError) ∧
    (∀ (a b : Int2), b.x.toQ = 0 →
      a.truediv (.vec b) = .error .zeroDivisionError) := by
  refine ⟨fun a s => rfl, fun a s => rfl, fun a s => rfl, fun a s => rfl, fun a s => rfl,
    fun a s => rfl, fun a s => rfl, fun a s => rfl, fun a s => rfl, fun a s => rfl, ?_⟩
  intro a b h
  simp only [Int2.truediv]
  rw [show pyTrueDiv a.x b.x = .error .zeroDivisionError from by rw [pyTrueDiv, if_pos h]]
  rfl

/-- C9 counterexample to the original claim: dividing the Int2 (4, 6) by the
scalar 2 raises AttributeError instead of broadcasting the divisor. -/
theorem claim_C9_scalar_division_raises :
    Int2.truediv (Int2.init (.int 4) (.int 6)) (.scalar (.int 2)) =
      .error .attributeError ∧
    Int2.floordiv (Int2.init (.int 4) (.int 6)) (.scalar (.int 2)) =
      .error .attributeError := ⟨rfl, rfl⟩

theorem claim_C9_scalar_broadcast_witness :
    Int2.add ⟨.int 4, .int 6⟩ (.scalar (.int 2)) = Int2.init (.int 6) (.int 8) ∧
    Int2.truediv ⟨.int 4, .int 6⟩ (.scalar (.int 2)) = .error .attributeError ∧
    Int2.truediv ⟨.int 4, .int 6⟩ (.vec ⟨.int 0, .int 1⟩) = .error .zeroDivisionError := by
  refine ⟨claim_C9_scalar_broadcast.1 ⟨.int 4, .int 6⟩ (.int 2),
    claim_C9_scalar_broadcast.2.2.2.2.2.2.1 ⟨.int 4, .int 6⟩ (.int 2),
    claim_C9_scalar_broadcast.2.2.2.2.2.2.2.2.2.2 ⟨.int 4, .int 6⟩ ⟨.int 0, .int 1⟩ ?_⟩
  show ((0 : Int) : Rat) = 0
  norm_num

/-- C10: from_widget aliases and mutates the source widget's stored kwargs:
after one clone of a widget built with name x, the source's kwargs has
lost its name entry, and cloning the same source again raises KeyError
instead of reproducing the first clone. -/
theorem claim_C10_from_widget_mutates_source :
    (PropertyWidget.init (.str ['x']) []).kwargs.get "name" = some (.str ['x']) ∧
    ∃ w1 srcAfter,
      PropertyWidget.from_widget (PropertyWidget.init (.str ['x']) []) [] =
        .ok (w1, srcAfter) ∧
      srcAfter.kwargs.get "name" = none ∧
      PropertyWidget.from_widget srcAfter [] = .error .keyError := by
  exact ⟨rfl, _, _, rfl, rfl, rfl⟩
